import Mathlib

/-!
Shallow embedding of the agent-validator repository (src/agent_validator),
centred on `validate.py`: the recursive schema validator `_validate_against_schema`,
the leaf coercer `_validate_type`, and the retry orchestrator `validate`.
Python runtime values are modelled by the inductive `Val`; Python's dynamic
`isinstance` test (including `bool` being a subclass of `int`) by `pyIsInstance`;
`json.loads` / `json.dumps` by an executable fuel-based parser and printer.
The orchestrator is modelled as a pure function returning its outcome together
with the ordered trace of external events it performs (generator invocations,
reporter hand-offs, sleeps), so temporal and counting claims are statable.
-/

namespace AgentValidator

/-- Python type tokens usable as schema leaves (schemas.py accepts exactly
`str`, `int`, `float`, `bool`, `list`, `dict`). -/
inductive PyType where
  | str
  | int
  | float
  | bool
  | list
  | dict
deriving DecidableEq, Repr

/-- Validation modes from typing_.py (`ValidationMode.STRICT` / `COERCE`). -/
inductive Mode where
  | strict
  | coerce
deriving DecidableEq, Repr

/-- Configuration for validation, mirroring the size-limit fields of
`Config` in typing_.py that validate.py reads.  The cloud/logging fields
(`cloud_endpoint`, `api_key`, ...) are reporter-boundary data never read by
the validation core and are omitted. -/
structure Config where
  maxOutputBytes : Nat := 131072
  maxStrLen : Nat := 8192
  maxListLen : Nat := 2048
  maxDictKeys : Nat := 512
deriving DecidableEq, Repr

/-- Default `Config()` from typing_.py. -/
def defaultConfig : Config := {}

/-- Python float values, modelled by the canonical shortest-repr literal that
denotes them (`repr(x)`).  Python documents that `float(repr(x)) == x` for every
float, so on canonical literals parsing is the identity and this representation
is exact; a literal produced by a non-canonical source string is kept verbatim
(the validator never compares, adds or otherwise computes with floats, so the
distinction is unobservable to the code under study). -/
structure PyFloat where
  lit : String
deriving DecidableEq, Repr

/-- Python runtime values that the validator can encounter: the JSON universe
(`None`, `bool`, `int`, `float`, `str`, `list`, `dict`).  Python dicts are
insertion-ordered, so a dict is an ordered association list. -/
inductive Val where
  | none
  | bool (b : Bool)
  | int (i : Int)
  | float (f : PyFloat)
  | str (s : String)
  | list (xs : List Val)
  | dict (kvs : List (String × Val))
deriving Repr

/-- Python `type(v).__name__` for the values of `Val`. -/
def typeName : Val → String
  | .none => "NoneType"
  | .bool _ => "bool"
  | .int _ => "int"
  | .float _ => "float"
  | .str _ => "str"
  | .list _ => "list"
  | .dict _ => "dict"

/-- Python `type.__name__` for the schema leaf tokens. -/
def PyType.pyName : PyType → String
  | .str => "str"
  | .int => "int"
  | .float => "float"
  | .bool => "bool"
  | .list => "list"
  | .dict => "dict"

/-- Python `isinstance(v, t)` for the modelled values and type tokens.  In
CPython `bool` is a subclass of `int`, so `isinstance(True, int)` is true;
no other subclass relation holds between these types. -/
def pyIsInstance : Val → PyType → Bool
  | .bool _, .bool => true
  | .bool _, .int => true
  | .int _, .int => true
  | .float _, .float => true
  | .str _, .str => true
  | .list _, .list => true
  | .dict _, .dict => true
  | _, _ => false

/-- ValidationError from errors.py (module absent from src/; its shape is fully
determined by the constructor calls in validate.py and spec §3: a path, a
reason string, an attempt number, and an optional correlation id).  The
correlation id is whatever value `context.get("correlation_id")` returned. -/
structure VError where
  path : String
  reason : String
  attempt : Nat
  correlationId : Option Val := Option.none
deriving Repr

/-- Failure channel of the embedded Python code: either a `ValidationError`
(caught by the orchestrator's `except ValidationError` handlers) or an
uncaught runtime exception such as `TypeError` (which unwinds out of
`validate` entirely). -/
inductive PyErr where
  | vErr (e : VError)
  | exn (name : String)
deriving Repr

/-! ### Python string helpers: `str.strip`, `int(s)`, `float(s)`, `str(x)` -/

/-- Whitespace characters removed by Python `str.strip()`. -/
def isPySpace (c : Char) : Bool :=
  c = ' ' || c = '\t' || c = '\n' || c = '\r' || c = '\x0b' || c = '\x0c'

/-- Python `str.strip()` on a character list. -/
def pyStripList (cs : List Char) : List Char :=
  ((cs.dropWhile isPySpace).reverse.dropWhile isPySpace).reverse

/-- Python `str.strip()`. -/
def pyStrip (s : String) : String := String.mk (pyStripList s.toList)

/-- Decimal digit value of a character, if it is one of 0-9. -/
def digit? (c : Char) : Option Nat :=
  if '0' ≤ c && c ≤ '9' then some (c.toNat - '0'.toNat) else Option.none

/-- Decimal rendering of a natural number, most significant digit first;
models how Python prints integers (plain base-10, no separators). -/
def natDecimal (n : Nat) : List Char :=
  if h : n < 10 then [Nat.digitChar n]
  else natDecimal (n / 10) ++ [Nat.digitChar (n % 10)]
  decreasing_by
    exact Nat.div_lt_self (Nat.pos_of_ne_zero (by omega)) (by omega)

/-- Python `str(i)` for an int: optional minus sign followed by decimal digits. -/
def intRepr : Int → String
  | .ofNat n => String.mk (natDecimal n)
  | .negSucc n => String.mk ('-' :: natDecimal (n + 1))

/-- Continuation of a digit run in Python numeric literals: digits with single
underscores allowed between digits (`1_000`), never leading, trailing or
doubled.  `acc` is the value of the digits already read. -/
def parseDigitsU (acc : Nat) : List Char → Option Nat
  | [] => some acc
  | c :: rest =>
    match digit? c with
    | some d => parseDigitsU (acc * 10 + d) rest
    | Option.none =>
      if c = '_' then
        match rest with
        | d :: rest2 =>
          match digit? d with
          | some dv => parseDigitsU (acc * 10 + dv) rest2
          | Option.none => Option.none
        | [] => Option.none
      else Option.none

/-- Nonempty digit run (underscores allowed inside), as accepted by
Python `int(...)` after sign and whitespace handling. -/
def parseUIntDigits : List Char → Option Nat
  | [] => Option.none
  | c :: rest =>
    match digit? c with
    | some d => parseDigitsU d rest
    | Option.none => Option.none

/-- Python `int(s)` on a string: surrounding whitespace, an optional sign,
then base-10 digits (single underscores between digits allowed); anything
else raises `ValueError`, modelled as `none`. -/
def intOfString (s : String) : Option Int :=
  match pyStripList s.toList with
  | '+' :: rest => (parseUIntDigits rest).map Int.ofNat
  | '-' :: rest => (parseUIntDigits rest).map (fun n => -(n : Int))
  | cs => (parseUIntDigits cs).map Int.ofNat

/-- Digit-run chomper for float literals: consumes a maximal run of digits with
legal single underscores between digits, returning how many digits were seen
and the rest; `none` on a malformed underscore. -/
def chompDigitsU (count : Nat) : List Char → Option (Nat × List Char)
  | [] => some (count, [])
  | c :: rest =>
    if (digit? c).isSome then chompDigitsU (count + 1) rest
    else if c = '_' then
      if count = 0 then Option.none
      else
        match rest with
        | d :: rest2 =>
          if (digit? d).isSome then chompDigitsU (count + 2) rest2
          else Option.none
        | [] => Option.none
    else some (count, c :: rest)

/-- Exponent tail of a Python float literal: after the mantissa, either nothing
or an `e` followed by an optional sign and a nonempty digit run. -/
def floatExpTail (cs : List Char) : Bool :=
  match cs with
  | [] => true
  | 'e' :: r =>
    let r2 := match r with
      | '+' :: r3 => r3
      | '-' :: r3 => r3
      | _ => r
    match chompDigitsU 0 r2 with
    | some (n, rest) => n > 0 && rest.isEmpty
    | Option.none => false
  | _ => false

/-- Body of a Python float literal after sign removal and lowercasing:
`inf`, `infinity`, `nan`, or a decimal mantissa with optional fraction and
exponent (at least one digit overall in the mantissa). -/
def isFloatBody (cs : List Char) : Bool :=
  if cs = ['i', 'n', 'f'] || cs = ['i', 'n', 'f', 'i', 'n', 'i', 't', 'y'] ||
      cs = ['n', 'a', 'n'] then true
  else
    match chompDigitsU 0 cs with
    | Option.none => false
    | some (n1, rest1) =>
      match rest1 with
      | '.' :: r =>
        match chompDigitsU 0 r with
        | Option.none => false
        | some (n2, rest2) => decide (n1 + n2 > 0) && floatExpTail rest2
      | _ => decide (n1 > 0) && floatExpTail rest1

/-- Acceptance test of Python `float(s)`: surrounding whitespace, an optional
sign, then a float body (case-insensitive for `inf`/`nan`/`e`). -/
def isFloatLitStr (s : String) : Bool :=
  match (pyStripList s.toList).map Char.toLower with
  | '+' :: r => isFloatBody r
  | '-' :: r => isFloatBody r
  | cs => isFloatBody cs

/-- Python `float(s)`: `None` models the `ValueError` on a malformed literal;
a well-formed literal yields the float denoted by its stripped text (exact on
canonical shortest-repr literals, which is the only place claims evaluate it). -/
def floatOfString (s : String) : Option PyFloat :=
  if isFloatLitStr s then some ⟨pyStrip s⟩ else Option.none

/-- Python `float(i)` for an int source (exact widening).  The canonical repr
of an integral float below 1e16 is the integer text followed by `.0`; larger
magnitudes switch to exponent notation in CPython, a corner no claim touches. -/
def floatOfInt (i : Int) : PyFloat := ⟨intRepr i ++ ".0"⟩

/-- Digit-run collector for float literals that keeps the digit values
(underscore rules as in `chompDigitsU`). -/
def collectDigitsU (acc : List Nat) : List Char → Option (List Nat × List Char)
  | [] => some (acc.reverse, [])
  | c :: rest =>
    match digit? c with
    | some d => collectDigitsU (d :: acc) rest
    | Option.none =>
      if c = '_' then
        if acc.isEmpty then Option.none
        else
          match rest with
          | d :: rest2 =>
            match digit? d with
            | some dv => collectDigitsU (dv :: acc) rest2
            | Option.none => Option.none
          | [] => Option.none
      else some (acc.reverse, c :: rest)

/-- Value of a digit list read in base 10. -/
def digitsVal (ds : List Nat) : Nat := ds.foldl (fun a d => a * 10 + d) 0

/-- Python `int(x)` applied to a float (truncation toward zero); `none` models
the `ValueError`/`OverflowError` raised on `nan`/`inf`.  The numeric value is
read off the stored literal. -/
def pyFloatTrunc (f : PyFloat) : Option Int :=
  let cs := f.lit.toList.map Char.toLower
  let (neg, body) : Bool × List Char :=
    match cs with
    | '-' :: r => (true, r)
    | '+' :: r => (false, r)
    | _ => (false, cs)
  if body = ['i', 'n', 'f'] || body = ['i', 'n', 'f', 'i', 'n', 'i', 't', 'y'] ||
      body = ['n', 'a', 'n'] then Option.none
  else
    match collectDigitsU [] body with
    | Option.none => Option.none
    | some (intDs, rest1) =>
      let (fracDs, rest2) : List Nat × List Char :=
        match rest1 with
        | '.' :: r =>
          match collectDigitsU [] r with
          | some (ds, rr) => (ds, rr)
          | Option.none => ([], r)
        | _ => ([], rest1)
      let expVal : Int :=
        match rest2 with
        | 'e' :: r =>
          let (esgn, r2) : Int × List Char :=
            match r with
            | '+' :: r3 => (1, r3)
            | '-' :: r3 => (-1, r3)
            | _ => (1, r)
          match collectDigitsU [] r2 with
          | some (eds, _) => esgn * (digitsVal eds : Int)
          | Option.none => 0
        | _ => 0
      let mant : Nat := digitsVal (intDs ++ fracDs)
      let e : Int := expVal - (fracDs.length : Int)
      let mag : Nat :=
        match e with
        | .ofNat k => mant * 10 ^ k
        | .negSucc k => mant / 10 ^ (k + 1)
      some (if neg then -(mag : Int) else (mag : Int))

/-- Lowercase hexadecimal digits of `n`, padded to 4 places, as used by the
`\uXXXX` escapes `json.dumps` emits. -/
def hex4Str (n : Nat) : String :=
  String.mk [Nat.digitChar (n / 4096 % 16), Nat.digitChar (n / 256 % 16),
    Nat.digitChar (n / 16 % 16), Nat.digitChar (n % 16)]

/-- Escape of one character inside a JSON string produced by `json.dumps`
with its default `ensure_ascii=True`: the two-character escapes for the
common controls, `\u00xx` for other controls, ASCII verbatim, and `\uXXXX`
(with a surrogate pair above the BMP) for everything non-ASCII. -/
def jsonEscapeChar (c : Char) : String :=
  if c = '"' then "\\\""
  else if c = '\\' then "\\\\"
  else if c = '\n' then "\\n"
  else if c = '\t' then "\\t"
  else if c = '\r' then "\\r"
  else if c = '\x08' then "\\b"
  else if c = '\x0c' then "\\f"
  else if c.toNat < 0x20 then "\\u" ++ hex4Str c.toNat
  else if c.toNat ≤ 0x7e then String.singleton c
  else if c.toNat < 0x10000 then "\\u" ++ hex4Str c.toNat
  else
    let v := c.toNat - 0x10000
    "\\u" ++ hex4Str (0xd800 + v / 0x400) ++ "\\u" ++ hex4Str (0xdc00 + v % 0x400)

/-- JSON string literal for `s` as `json.dumps` renders it. -/
def jsonQuote (s : String) : String :=
  "\"" ++ (s.toList.map jsonEscapeChar).foldl (· ++ ·) "" ++ "\""

/-- Rendering of a float by `json.dumps`: `repr(x)` except for the special
non-finite spellings `NaN`, `Infinity`, `-Infinity`. -/
def jsonFloatRepr (f : PyFloat) : String :=
  if f.lit = "nan" then "NaN"
  else if f.lit = "inf" then "Infinity"
  else if f.lit = "-inf" then "-Infinity"
  else f.lit

mutual

/-- Python `json.dumps(v)` with default arguments: item separator `", "`,
key separator `": "`, `ensure_ascii=True`. -/
def jsonDumps : Val → String
  | .none => "null"
  | .bool true => "true"
  | .bool false => "false"
  | .int i => intRepr i
  | .float f => jsonFloatRepr f
  | .str s => jsonQuote s
  | .list xs => "[" ++ jsonDumpsItems xs ++ "]"
  | .dict kvs => "\x7b" ++ jsonDumpsPairs kvs ++ "\x7d"

/-- Comma-joined dumps of list elements. -/
def jsonDumpsItems : List Val → String
  | [] => ""
  | [x] => jsonDumps x
  | x :: y :: rest => jsonDumps x ++ ", " ++ jsonDumpsItems (y :: rest)

/-- Comma-joined dumps of dict entries. -/
def jsonDumpsPairs : List (String × Val) → String
  | [] => ""
  | [(k, v)] => jsonQuote k ++ ": " ++ jsonDumps v
  | (k, v) :: p :: rest => jsonQuote k ++ ": " ++ jsonDumps v ++ ", " ++ jsonDumpsPairs (p :: rest)

end

/-- Python `repr` of a text string, approximated: single-quoted with the
backslash, quote, and control escapes (CPython prefers double quotes when the
text contains a single quote but no double quote; that cosmetic switch is not
modelled).  Only reachable through `str()` applied to a container, which no
claim exercises. -/
def strReprPy (s : String) : String :=
  let esc : Char → String := fun c =>
    if c = '\\' then "\\\\"
    else if c = '\'' then "\\'"
    else if c = '\n' then "\\n"
    else if c = '\t' then "\\t"
    else if c = '\r' then "\\r"
    else if c.toNat < 0x20 then "\\x" ++ String.mk [Nat.digitChar (c.toNat / 16), Nat.digitChar (c.toNat % 16)]
    else String.singleton c
  "'" ++ (s.toList.map esc).foldl (· ++ ·) "" ++ "'"

mutual

/-- Python `repr(v)`. -/
def pyRepr : Val → String
  | .none => "None"
  | .bool true => "True"
  | .bool false => "False"
  | .int i => intRepr i
  | .float f => f.lit
  | .str s => strReprPy s
  | .list xs => "[" ++ pyReprItems xs ++ "]"
  | .dict kvs => "\x7b" ++ pyReprPairs kvs ++ "\x7d"

/-- Comma-joined reprs of list elements. -/
def pyReprItems : List Val → String
  | [] => ""
  | [x] => pyRepr x
  | x :: y :: rest => pyRepr x ++ ", " ++ pyReprItems (y :: rest)

/-- Comma-joined reprs of dict entries. -/
def pyReprPairs : List (String × Val) → String
  | [] => ""
  | [(k, v)] => strReprPy k ++ ": " ++ pyRepr v
  | (k, v) :: p :: rest => strReprPy k ++ ": " ++ pyRepr v ++ ", " ++ pyReprPairs (p :: rest)

end

/-- Python `str(v)`: identity on strings, `None`/`True`/`False` spellings,
decimal for ints, shortest repr for floats, and `repr` for containers. -/
def pyStr : Val → String
  | .none => "None"
  | .bool true => "True"
  | .bool false => "False"
  | .int i => intRepr i
  | .float f => f.lit
  | .str s => s
  | .list xs => pyRepr (.list xs)
  | .dict kvs => pyRepr (.dict kvs)

/-! ### `json.loads`, as a fuel-based recursive-descent parser -/

/-- JSON whitespace skipper (space, tab, newline, carriage return). -/
def jSkipWs : List Char → List Char
  | c :: cs => if c = ' ' || c = '\t' || c = '\n' || c = '\r' then jSkipWs cs else c :: cs
  | [] => []

/-- Hexadecimal value of one character, if any (decimal digits via `digit?`,
letter digits by code point: 97-102 are a-f, 65-70 are A-F). -/
def hexDigit? (c : Char) : Option Nat :=
  match digit? c with
  | some d => some d
  | Option.none =>
    let n := c.toNat
    if 97 ≤ n && n ≤ 102 then some (n - 87)
    else if 65 ≤ n && n ≤ 70 then some (n - 55)
    else Option.none

/-- Body of a JSON string after the opening quote: strict mode of Python's
json module, so raw control characters are rejected and only the standard
escapes plus `\uXXXX` are admitted (surrogate-pair recombination for
astral-plane characters is not modelled; no claim involves them). -/
def jloadStrBody (acc : List Char) : List Char → Option (String × List Char)
  | [] => Option.none
  | '"' :: rest => some (String.mk acc.reverse, rest)
  | '\\' :: esc :: rest =>
    match esc with
    | '"' => jloadStrBody ('"' :: acc) rest
    | '\\' => jloadStrBody ('\\' :: acc) rest
    | '/' => jloadStrBody ('/' :: acc) rest
    | 'b' => jloadStrBody ('\x08' :: acc) rest
    | 'f' => jloadStrBody ('\x0c' :: acc) rest
    | 'n' => jloadStrBody ('\n' :: acc) rest
    | 'r' => jloadStrBody ('\r' :: acc) rest
    | 't' => jloadStrBody ('\t' :: acc) rest
    | 'u' =>
      match rest with
      | u1 :: u2 :: u3 :: u4 :: rest2 =>
        match hexDigit? u1, hexDigit? u2, hexDigit? u3, hexDigit? u4 with
        | some h1, some h2, some h3, some h4 =>
          jloadStrBody (Char.ofNat (h1 * 4096 + h2 * 256 + h3 * 16 + h4) :: acc) rest2
        | _, _, _, _ => Option.none
      | _ => Option.none
    | _ => Option.none
  | c :: rest =>
    if c.toNat < 0x20 then Option.none else jloadStrBody (c :: acc) rest

/-- Plain maximal run of decimal digits (no underscores: JSON forbids them). -/
def jTakeDigits : List Char → List Char × List Char
  | [] => ([], [])
  | c :: rest =>
    if (digit? c).isSome then
      let (ds, rr) := jTakeDigits rest
      (c :: ds, rr)
    else ([], c :: rest)

/-- Consumption of a fixed keyword at the head of the input, returning what
follows it. -/
def chompKeyword : List Char → List Char → Option (List Char)
  | [], rest => some rest
  | k :: ks, c :: rest => if c = k then chompKeyword ks rest else Option.none
  | _ :: _, [] => Option.none

/-- Literal tokens Python json accepts at value position: the JSON keywords
plus the non-finite extensions `NaN`, `Infinity`, `-Infinity`. -/
def jloadWord (cs : List Char) : Option (Val × List Char) :=
  match chompKeyword "null".toList cs with
  | some r => some (.none, r)
  | Option.none =>
  match chompKeyword "true".toList cs with
  | some r => some (.bool true, r)
  | Option.none =>
  match chompKeyword "false".toList cs with
  | some r => some (.bool false, r)
  | Option.none =>
  match chompKeyword "NaN".toList cs with
  | some r => some (.float ⟨"nan"⟩, r)
  | Option.none =>
  match chompKeyword "Infinity".toList cs with
  | some r => some (.float ⟨"inf"⟩, r)
  | Option.none =>
  match chompKeyword "-Infinity".toList cs with
  | some r => some (.float ⟨"-inf"⟩, r)
  | Option.none => Option.none

/-- JSON number at the head of the input: `-? (0 | [1-9][0-9]*) frac? exp?`.
Python's json turns it into an `int` when there is no fraction and no
exponent, and into a `float` otherwise; the float keeps the literal text it
was parsed from (see `PyFloat`). -/
def jloadNum (cs : List Char) : Option (Val × List Char) :=
  let (sign, cs1) : List Char × List Char :=
    match cs with
    | '-' :: r => (['-'], r)
    | _ => ([], cs)
  let (intDs, cs2) := jTakeDigits cs1
  match intDs with
  | [] => Option.none
  | '0' :: _ :: _ => Option.none
  | _ =>
    let (fracDs, cs3) : List Char × List Char :=
      match cs2 with
      | '.' :: r =>
        let (ds, rr) := jTakeDigits r
        (ds, rr)
      | _ => ([], cs2)
    let fracBad := match cs2 with
      | '.' :: _ => fracDs.isEmpty
      | _ => false
    let (expCs, cs4) : List Char × List Char :=
      match cs3 with
      | 'e' :: r | 'E' :: r =>
        let (es, r2) : List Char × List Char :=
          match r with
          | '+' :: r3 => (['e', '+'], r3)
          | '-' :: r3 => (['e', '-'], r3)
          | _ => (['e'], r)
        let (ds, rr) := jTakeDigits r2
        (if ds.isEmpty then [] else es ++ ds, if ds.isEmpty then cs3 else rr)
      | _ => ([], cs3)
    let expBad := match cs3 with
      | 'e' :: _ | 'E' :: _ => expCs.isEmpty
      | _ => false
    if fracBad || expBad then Option.none
    else if fracDs.isEmpty && expCs.isEmpty then
      let n := digitsVal (intDs.filterMap digit?)
      some (.int (if sign.isEmpty then (n : Int) else -(n : Int)), cs2)
    else
      let lit := String.mk (sign ++ intDs ++
        (match cs2 with
         | '.' :: _ => '.' :: fracDs
         | _ => []) ++ expCs)
      some (.float ⟨lit⟩, cs4)

mutual

/-- One JSON value at the head of the input.  The fuel argument only bounds
recursion depth; `jsonLoads` supplies more fuel than any input can consume. -/
def jloadVal (fuel : Nat) (cs : List Char) : Option (Val × List Char) :=
  match fuel with
  | 0 => Option.none
  | fuel + 1 =>
    match jSkipWs cs with
    | '"' :: r =>
      match jloadStrBody [] r with
      | some (s, rr) => some (.str s, rr)
      | Option.none => Option.none
    | '[' :: r =>
      match jSkipWs r with
      | ']' :: rr => some (.list [], rr)
      | other =>
        match jloadItems fuel other with
        | some (xs, rr) => some (.list xs, rr)
        | Option.none => Option.none
    | '\x7b' :: r =>
      match jSkipWs r with
      | '\x7d' :: rr => some (.dict [], rr)
      | other =>
        match jloadPairs fuel other with
        | some (kvs, rr) => some (.dict kvs, rr)
        | Option.none => Option.none
    | other =>
      match jloadWord other with
      | some res => some res
      | Option.none => jloadNum other

/-- One-or-more comma-separated array items up to the closing bracket. -/
def jloadItems (fuel : Nat) (cs : List Char) : Option (List Val × List Char) :=
  match fuel with
  | 0 => Option.none
  | fuel + 1 =>
    match jloadVal fuel cs with
    | Option.none => Option.none
    | some (v, rest) =>
      match jSkipWs rest with
      | ',' :: r2 =>
        match jloadItems fuel r2 with
        | some (xs, rr) => some (v :: xs, rr)
        | Option.none => Option.none
      | ']' :: rr => some ([v], rr)
      | _ => Option.none

/-- One-or-more comma-separated object entries up to the closing brace. -/
def jloadPairs (fuel : Nat) (cs : List Char) : Option (List (String × Val) × List Char) :=
  match fuel with
  | 0 => Option.none
  | fuel + 1 =>
    match jSkipWs cs with
    | '"' :: r =>
      match jloadStrBody [] r with
      | Option.none => Option.none
      | some (k, r1) =>
        match jSkipWs r1 with
        | ':' :: r2 =>
          match jloadVal fuel r2 with
          | Option.none => Option.none
          | some (v, r3) =>
            match jSkipWs r3 with
            | ',' :: r4 =>
              match jloadPairs fuel r4 with
              | some (kvs, rr) => some ((k, v) :: kvs, rr)
              | Option.none => Option.none
            | '\x7d' :: rr => some ([(k, v)], rr)
            | _ => Option.none
        | _ => Option.none
    | _ => Option.none

end

/-- Python `json.loads(s)`: parse one JSON document with nothing but
whitespace after it; `none` models `json.JSONDecodeError`. -/
def jsonLoads (s : String) : Option Val :=
  let cs := s.toList
  match jloadVal (cs.length + 2) cs with
  | some (v, rest) => if (jSkipWs rest).isEmpty then some v else Option.none
  | Option.none => Option.none

/-! ### Schemas

Schema shapes as `Schema._validate_schema` (schemas.py) admits them: an object
maps string keys to child nodes; a child node is `None` (the optional marker),
one of the six type tokens, a nested object, or a single-element list whose
element shape is a type token or a nested object.  Construction-time
validation in schemas.py rejects every other shape, so the inductive types
below are exactly the well-formed schemas. -/

mutual

/-- Schema node: value side of one schema entry. -/
inductive SNode where
  | optional
  | leaf (t : PyType)
  | obj (fields : SFields)
  | listOf (elem : SElem)

/-- Ordered fields of an object schema (a Python dict of declarations). -/
inductive SFields where
  | nil
  | cons (key : String) (node : SNode) (rest : SFields)

/-- Element shape of a list schema: a type token or a nested object. -/
inductive SElem where
  | ty (t : PyType)
  | obj (fields : SFields)

end

/-- Lowercasing as Python `str.lower()` does for the spellings the validator
compares against (character-wise; implemented over the character list so the
kernel can evaluate it). -/
def strLower (s : String) : String := String.mk (s.toList.map Char.toLower)

/-- Shorthand for the `ValidationError` raised inside the validator: attempt 0
and no correlation id, exactly as `_validate_against_schema` and
`_validate_type` construct it. -/
def verr (path reason : String) : PyErr :=
  .vErr ⟨path, reason, 0, Option.none⟩

/-- Embedding of `_validate_type` (validate.py lines 313-397): pass-through on
an `isinstance` match, type-mismatch failure in STRICT mode, and the explicit
coercion table in COERCE mode.  The `int(value)` applied to a non-finite float
raises an uncaught `OverflowError`/`ValueError`, modelled as `PyErr.exn`. -/
def validateType (value : Val) (expectedType : PyType) (mode : Mode) (path : String) :
    Except PyErr Val :=
  if pyIsInstance value expectedType then .ok value
  else if mode = .strict then
    .error (verr path ("Expected " ++ expectedType.pyName ++ ", got " ++ typeName value))
  else
    match expectedType with
    | .int =>
      match value with
      | .str s =>
        match intOfString (pyStrip s) with
        | some n => .ok (.int n)
        | Option.none => .error (verr path "Cannot coerce to int")
      | .float f =>
        match pyFloatTrunc f with
        | some n => .ok (.int n)
        | Option.none => .error (.exn "OverflowError")
      | _ => .error (verr path "Cannot coerce to int")
    | .float =>
      match value with
      | .str s =>
        match floatOfString (pyStrip s) with
        | some f => .ok (.float f)
        | Option.none => .error (verr path "Cannot coerce to float")
      | .int i => .ok (.float (floatOfInt i))
      | .bool b => .ok (.float (floatOfInt (if b then 1 else 0)))
      | _ => .error (verr path "Cannot coerce to float")
    | .bool =>
      match value with
      | .str s =>
        let low := strLower (pyStrip s)
        if low = "true" || low = "1" || low = "yes" || low = "on" then .ok (.bool true)
        else if low = "false" || low = "0" || low = "no" || low = "off" then .ok (.bool false)
        else .error (verr path "Cannot coerce to bool")
      | .int i => .ok (.bool (decide (i ≠ 0)))
      | _ => .error (verr path "Cannot coerce to bool")
    | .str => .ok (.str (pyStr value))
    | t => .error (verr path ("Cannot coerce to " ++ t.pyName))

/-- Python `==` between a string key and an arbitrary value (used by `in` on a
list); equal only to an equal string. -/
def pyEqStrVal (key : String) (v : Val) : Bool :=
  match v with
  | .str s => s = key
  | _ => false

/-- Check whether `needle` begins `hay`. -/
def startsWithChars : List Char → List Char → Bool
  | [], _ => true
  | _ :: _, [] => false
  | n :: ns, h :: hs => n = h && startsWithChars ns hs

/-- Substring test, as Python `in` behaves on strings. -/
def strContainsSub (needle : List Char) : List Char → Bool
  | [] => needle.isEmpty
  | h :: rest => startsWithChars needle (h :: rest) || strContainsSub needle rest

/-- Python `key not in data` on an arbitrary value: key membership for dicts,
element equality for lists, substring test for strings, and a `TypeError`
for non-containers.  Non-dict shapes are reachable only through the COERCE
branch that replaces a string payload by its parsed JSON. -/
def keyNotIn (key : String) (data : Val) : Except PyErr Bool :=
  match data with
  | .dict kvs => .ok (!(kvs.any (fun p => p.1 = key)))
  | .list xs => .ok (!(xs.any (pyEqStrVal key)))
  | .str s => .ok (!(strContainsSub key.toList s.toList))
  | _ => .error (.exn "TypeError")

/-- First value stored under `k` in an association list (Python dict lookup;
Python dicts cannot actually hold duplicate keys). -/
def alLookup (k : String) : List (String × Val) → Option Val
  | [] => Option.none
  | (k2, v) :: rest => if k2 = k then some v else alLookup k rest

/-- Python `data[key]` for a string key: dict lookup, `TypeError` on any other
container (string/list indices must be integers). -/
def getItem (data : Val) (key : String) : Except PyErr Val :=
  match data with
  | .dict kvs =>
    match alLookup key kvs with
    | some v => .ok v
    | Option.none => .error (.exn "KeyError")
  | _ => .error (.exn "TypeError")

/-- Python iteration as performed by `enumerate(value)`: list elements,
string characters, dict keys; `TypeError` on non-iterables. -/
def pyIter (v : Val) : Except PyErr (List Val) :=
  match v with
  | .list xs => .ok xs
  | .str s => .ok (s.toList.map (fun c => .str (String.singleton c)))
  | .dict kvs => .ok (kvs.map (fun p => .str p.1))
  | _ => .error (.exn "TypeError")

/-- Non-list handling of a list field (validate.py lines 268-291): STRICT
mode fails with the type mismatch; COERCE mode substitutes the JSON parse of
a string value, failing with `Cannot coerce to list` on a parse error or a
non-string value. -/
def coerceListValue (value : Val) (mode : Mode) (fpath : String) : Except PyErr Val :=
  match value with
  | .list _ => .ok value
  | _ =>
    if mode = .strict then
      .error (verr fpath ("Expected list, got " ++ typeName value))
    else
      match value with
      | .str s =>
        match jsonLoads s with
        | some v2 => .ok v2
        | Option.none => .error (verr fpath "Cannot coerce to list")
      | _ => .error (verr fpath "Cannot coerce to list")

/-- Bracketed element path `fpath[i]` used for list-element errors. -/
def idxPath (fpath : String) (i : Nat) : String :=
  fpath ++ "[" ++ String.mk (natDecimal i) ++ "]"

/-- Element loop of a list schema whose element shape is a type token
(validate.py lines 294-298): each item goes through `_validate_type` at path
`fpath[i]`, and the first failure aborts the whole list. -/
def validateElemsTy (t : PyType) (mode : Mode) (fpath : String) :
    Nat → List Val → Except PyErr (List Val)
  | _, [] => .ok []
  | i, x :: rest =>
    match validateType x t mode (idxPath fpath i) with
    | .error e => .error e
    | .ok v2 =>
      match validateElemsTy t mode fpath (i + 1) rest with
      | .error e => .error e
      | .ok vs => .ok (v2 :: vs)

mutual

/-- Embedding of `_validate_against_schema` (validate.py lines 181-310).
The `None` pass-through (line 191) precedes everything, then the size limits
(lines 194-214) on the incoming value, then the object handling.  In the
source the schema argument is always a well-formed `Schema`, whose
`schema_dict` is necessarily a dict, so the `isinstance(schema.schema_dict,
dict)` test at line 217 is always true and the trailing `return data` at
line 310 is dead code; the embedding therefore takes the declared fields
directly. -/
def validateAgainstSchema (data : Val) (fields : SFields) (mode : Mode) (cfg : Config)
    (path : String) : Except PyErr Val :=
  match data with
  | .none => .ok .none
  | d =>
    if (match d with | .str s => decide (s.length > cfg.maxStrLen) | _ => false) then
      .error (verr path "size_limit")
    else if (match d with | .list xs => decide (xs.length > cfg.maxListLen) | _ => false) then
      .error (verr path "size_limit")
    else if (match d with | .dict kvs => decide (kvs.length > cfg.maxDictKeys) | _ => false) then
      .error (verr path "size_limit")
    else
      match d with
      | .dict _ =>
        match validateFields d fields mode cfg path with
        | .error e => .error e
        | .ok l => .ok (.dict l)
      | _ =>
        if mode = .strict then
          .error (verr path ("Expected dict, got " ++ typeName d))
        else
          match d with
          | .str s =>
            match jsonLoads s with
            | some d2 =>
              match validateFields d2 fields mode cfg path with
              | .error e => .error e
              | .ok l => .ok (.dict l)
            | Option.none => .error (verr path "Cannot coerce to dict")
          | _ => .error (verr path "Cannot coerce to dict")
termination_by (sizeOf fields, 1, 0)

/-- Field loop of `_validate_against_schema` (lines 242-307): walk the
declared fields in order, fail on a missing required field, skip an absent
optional one, and dispatch present values by the child node shape, building
the result object from schema-declared keys only.  `data` is an arbitrary
value because the COERCE branch can substitute any parsed JSON for it; the
`in`/indexing primitives then behave as Python does. -/
def validateFields (data : Val) (fields : SFields) (mode : Mode) (cfg : Config)
    (path : String) : Except PyErr (List (String × Val)) :=
  match fields with
  | .nil => .ok []
  | .cons key node rest =>
    match keyNotIn key data with
    | .error e => .error e
    | .ok true =>
      match node with
      | .optional => validateFields data rest mode cfg path
      | _ => .error (verr (path ++ "." ++ key) "Missing required field")
    | .ok false =>
      match getItem data key with
      | .error e => .error e
      | .ok value =>
        match node with
        | .optional =>
          match validateFields data rest mode cfg path with
          | .error e => .error e
          | .ok l => .ok ((key, value) :: l)
        | .leaf t =>
          match validateType value t mode (path ++ "." ++ key) with
          | .error e => .error e
          | .ok v2 =>
            match validateFields data rest mode cfg path with
            | .error e => .error e
            | .ok l => .ok ((key, v2) :: l)
        | .obj fs =>
          match validateAgainstSchema value fs mode cfg (path ++ "." ++ key) with
          | .error e => .error e
          | .ok v2 =>
            match validateFields data rest mode cfg path with
            | .error e => .error e
            | .ok l => .ok ((key, v2) :: l)
        | .listOf elem =>
          match validateListField value elem mode cfg (path ++ "." ++ key) with
          | .error e => .error e
          | .ok v2 =>
            match validateFields data rest mode cfg path with
            | .error e => .error e
            | .ok l => .ok ((key, v2) :: l)
termination_by (sizeOf fields, 0, 0)

/-- List-field handling of `_validate_against_schema` (lines 267-306): a
non-list value is a STRICT mismatch or a COERCE JSON-parse of a string, then
the elements of the (possibly substituted) value are validated one by one.
A parse that yields a non-list makes the source iterate whatever came back:
`enumerate` accepts strings and dicts and raises `TypeError` otherwise. -/
def validateListField (value : Val) (elem : SElem) (mode : Mode) (cfg : Config)
    (fpath : String) : Except PyErr Val :=
  match coerceListValue value mode fpath with
  | .error e => .error e
  | .ok v2 =>
    match pyIter v2 with
    | .error e => .error e
    | .ok items =>
      match elem with
      | .ty t =>
        match validateElemsTy t mode fpath 0 items with
        | .error e => .error e
        | .ok vs => .ok (.list vs)
      | .obj fs =>
        match validateElemsObj fs mode cfg fpath 0 items with
        | .error e => .error e
        | .ok vs => .ok (.list vs)
termination_by (sizeOf elem, 2, 0)

/-- Element loop of a list schema whose element shape is a nested object
(lines 299-306): each item is validated against the nested schema at path
`fpath[i]`. -/
def validateElemsObj (fs : SFields) (mode : Mode) (cfg : Config) (fpath : String) :
    Nat → List Val → Except PyErr (List Val)
  | _, [] => .ok []
  | i, x :: rest =>
    match validateAgainstSchema x fs mode cfg (idxPath fpath i) with
    | .error e => .error e
    | .ok v2 =>
      match validateElemsObj fs mode cfg fpath (i + 1) rest with
      | .error e => .error e
      | .ok vs => .ok (v2 :: vs)
termination_by i xs => (sizeOf fs, 3, xs.length)

end

/-! ### The retry orchestrator `validate` (validate.py lines 14-178)

The orchestrator performs external effects: it invokes the caller-supplied
generator (`retry_fn`), hands Attempt Records to the Outcome Reporter
(`log_validation_result` from logging_.py, an external collaborator), and —
were any backoff present — would sleep.  The embedding returns the final
outcome together with the ordered trace of these events, so claims about
how often each effect happens are plain statements about the trace.  Wall
clock readings (`time.time()`) only feed the `duration_ms` record field; the
measured value is supplied as the ambient parameter `durationMs`. -/

/-- Input accepted by `validate`: a raw string or an already-structured value
(`agent_output: Union[str, Dict[str, Any]]`). -/
inductive AgentOutput where
  | str (s : String)
  | val (v : Val)

/-- Result of one call to the generator `retry_fn`: a returned output, a
raised `ValidationError` (caught by the loop's handler), or a raised
exception of any other class (uncaught). -/
inductive GenResult where
  | returns (out : AgentOutput)
  | raisesVErr (e : VError)
  | raisesExn (name : String)

/-- Generator behaviour across the call sequence: the result of the
invocation made during retry attempt `i` (the source always passes the empty
prompt and the caller context, so the attempt index determines the call). -/
def GenFn := Nat → GenResult

/-- Attempt Record handed to the Outcome Reporter, with the argument list of
`log_validation_result` as called from validate.py (the pass-through `config`
argument carries no attempt data and is omitted). -/
structure AttemptRecord where
  correlationId : Option Val
  valid : Bool
  errors : List (String × String)
  attempts : Nat
  durationMs : Nat
  mode : Mode
  context : List (String × Val)
  outputSample : String
  logToCloud : Bool

/-- Externally visible events of one `validate` call, in order: generator
invocations, Attempt Records handed to the reporter, and blocking sleeps
(the constructor exists so that the absence of backoff waits is a statement
about the trace, not about the type). -/
inductive Event where
  | genCall (attempt : Nat)
  | report (r : AttemptRecord)
  | sleep (ms : Nat)

/-- Final disposition of a `validate` call: a returned value, a raised
`ValidationError`, or an uncaught exception of another class unwinding out
of the function. -/
inductive Outcome where
  | ok (v : Val)
  | err (e : VError)
  | exn (name : String)

/-- First 1000 characters of the serialized output (`output_str[:1000]`). -/
def sampleOf (s : String) : String := String.mk (s.toList.take 1000)

/-- Normalization of a candidate output (validate.py lines 51-63 and
124-130): parse a string as JSON; on failure STRICT mode signals invalid
JSON (`none` here) while COERCE wraps the raw text as `{"raw_output": s}`. -/
def normalizeOutput (out : AgentOutput) (mode : Mode) : Option Val :=
  match out with
  | .val v => some v
  | .str s =>
    match jsonLoads s with
    | some v => some v
    | Option.none =>
      match mode with
      | .strict => Option.none
      | .coerce => some (.dict [("raw_output", .str s)])

/-- Retry loop of `validate` (lines 114-178).  `attempt` is the 1-based loop
counter, `remaining` how many loop iterations are left, `lastError` the
`last_error` variable.  Each iteration invokes the generator once; a raised
`ValidationError` is caught and recorded as `last_error`; any other raised
exception unwinds immediately.  A returned output is normalized and
size-checked — failure there consumes the attempt without touching
`last_error` — then validated; success logs and returns, a
`ValidationError` is recorded and the loop advances, and after the last
iteration the final failure record is logged and `last_error` re-raised. -/
def retryLoop (gen : GenFn) (fields : SFields) (retries : Nat) (mode : Mode) (cfg : Config)
    (ctx : List (String × Val)) (cid : Option Val) (logToCloud : Bool) (durationMs : Nat)
    (origSample : String) (attempt : Nat) (remaining : Nat) (lastError : VError) :
    Outcome × List Event :=
  match remaining with
  | 0 =>
    (.err lastError,
      [.report ⟨cid, false, [(lastError.path, lastError.reason)], retries + 1, durationMs,
        mode, ctx, origSample, logToCloud⟩])
  | r + 1 =>
    let step : Outcome × List Event :=
      match gen attempt with
      | .raisesExn name => (.exn name, [])
      | .raisesVErr e =>
        retryLoop gen fields retries mode cfg ctx cid logToCloud durationMs origSample
          (attempt + 1) r e
      | .returns newOut =>
        match normalizeOutput newOut mode with
        | Option.none =>
          retryLoop gen fields retries mode cfg ctx cid logToCloud durationMs origSample
            (attempt + 1) r lastError
        | some newData =>
          let newStr := jsonDumps newData
          if newStr.utf8ByteSize > cfg.maxOutputBytes then
            retryLoop gen fields retries mode cfg ctx cid logToCloud durationMs origSample
              (attempt + 1) r lastError
          else
            match validateAgainstSchema newData fields mode cfg "root" with
            | .ok v =>
              (.ok v,
                [.report ⟨cid, true, [], attempt + 1, durationMs, mode, ctx,
                  sampleOf newStr, logToCloud⟩])
            | .error (.exn name) => (.exn name, [])
            | .error (.vErr e) =>
              retryLoop gen fields retries mode cfg ctx cid logToCloud durationMs origSample
                (attempt + 1) r e
    (step.1, .genCall attempt :: step.2)

/-- Embedding of `validate` (validate.py lines 14-178): normalize the input,
enforce the whole-payload byte ceiling, validate, report/return on success;
on a `ValidationError` either re-raise at once (no generator) or run the
retry loop.  Note that the two early failures — invalid JSON in STRICT mode
and the payload size ceiling — raise before any Attempt Record is produced,
and that an uncaught exception (`PyErr.exn`) bypasses the reporter as well. -/
def validate (out : AgentOutput) (fields : SFields) (retryFn : Option GenFn) (retries : Nat)
    (mode : Mode) (cfg : Config) (ctx : List (String × Val)) (logToCloud : Bool)
    (durationMs : Nat) : Outcome × List Event :=
  let cid := alLookup "correlation_id" ctx
  match normalizeOutput out mode with
  | Option.none => (.err ⟨"root", "Invalid JSON", 0, cid⟩, [])
  | some data =>
    let outputStr := jsonDumps data
    if outputStr.utf8ByteSize > cfg.maxOutputBytes then
      (.err ⟨"root", "size_limit", 0, cid⟩, [])
    else
      match validateAgainstSchema data fields mode cfg "root" with
      | .ok v =>
        (.ok v,
          [.report ⟨cid, true, [], 1, 0, mode, ctx, sampleOf outputStr, logToCloud⟩])
      | .error (.exn name) => (.exn name, [])
      | .error (.vErr e) =>
        match retryFn with
        | Option.none =>
          (.err e,
            [.report ⟨cid, false, [(e.path, e.reason)], 1, 0, mode, ctx,
              sampleOf outputStr, logToCloud⟩])
        | some gen =>
          retryLoop gen fields retries mode cfg ctx cid logToCloud durationMs
            (sampleOf outputStr) 1 retries e

/-! ### Already-matching values, schema-restriction, and size-limit bounds

Specification vocabulary for the passthrough claims: `matchesFields` says a
value already has its schema's declared types (so STRICT validation has
nothing to reject), `restrictFields` is the input restricted recursively to
schema-declared keys, and `limitsOkFields` says the key counts of the object
values that the recursion feeds through `_validate_against_schema` stay
within the configured bound (the only size check a matching value can
trip). -/

mutual

/-- Does each declared field hold a value of its declared type (absent fields
allowed only for the optional marker)? -/
def matchesFields (kvs : List (String × Val)) : SFields → Bool
  | .nil => true
  | .cons key node rest =>
    (match alLookup key kvs with
     | Option.none => (match node with | .optional => true | _ => false)
     | some v => matchesNode v node) && matchesFields kvs rest
termination_by fields => (sizeOf fields, 0, 0)

/-- Does a present value already match a schema node? -/
def matchesNode (v : Val) : SNode → Bool
  | .optional => true
  | .leaf t => pyIsInstance v t
  | .obj fs => (match v with | .dict kvs => matchesFields kvs fs | _ => false)
  | .listOf e => (match v with | .list xs => matchesElems e xs | _ => false)
termination_by node => (sizeOf node, 1, 0)

/-- Do all list elements match the element shape? -/
def matchesElems : SElem → List Val → Bool
  | _, [] => true
  | e, x :: rest => matchesElemVal x e && matchesElems e rest
termination_by e xs => (sizeOf e, 2, xs.length)

/-- Does one list element match the element shape? -/
def matchesElemVal (x : Val) : SElem → Bool
  | .ty t => pyIsInstance x t
  | .obj fs => (match x with | .dict kvs => matchesFields kvs fs | _ => false)
termination_by e => (sizeOf e, 0, 0)

end

mutual

/-- Input restricted, recursively, to schema-declared keys (the value STRICT
validation of a matching input returns). -/
def restrictFields (kvs : List (String × Val)) : SFields → List (String × Val)
  | .nil => []
  | .cons key node rest =>
    match alLookup key kvs with
    | Option.none => restrictFields kvs rest
    | some v => (key, restrictNode v node) :: restrictFields kvs rest
termination_by fields => (sizeOf fields, 0, 0)

/-- Restriction of one present value by its schema node. -/
def restrictNode (v : Val) : SNode → Val
  | .optional => v
  | .leaf _ => v
  | .obj fs => (match v with | .dict kvs => .dict (restrictFields kvs fs) | _ => v)
  | .listOf e => (match v with | .list xs => .list (restrictElems e xs) | _ => v)
termination_by node => (sizeOf node, 1, 0)

/-- Restriction of list elements by the element shape. -/
def restrictElems : SElem → List Val → List Val
  | _, [] => []
  | e, x :: rest => restrictElemVal x e :: restrictElems e rest
termination_by e xs => (sizeOf e, 2, xs.length)

/-- Restriction of one list element by the element shape. -/
def restrictElemVal (x : Val) : SElem → Val
  | .ty _ => x
  | .obj fs => (match x with | .dict kvs => .dict (restrictFields kvs fs) | _ => x)
termination_by e => (sizeOf e, 0, 0)

end

mutual

/-- Are the key counts of this object value, and of every object value the
schema recursion descends into, within `cfg.maxDictKeys`?  Leaf and list
field values are never size-checked by the source (they bypass
`_validate_against_schema`), so no other bound appears here. -/
def limitsOkFields (cfg : Config) (kvs : List (String × Val)) (fields : SFields) : Bool :=
  decide (kvs.length ≤ cfg.maxDictKeys) && limitsOkEach cfg kvs fields
termination_by (sizeOf fields, 1, 0)

/-- Per-field limit check of the present values. -/
def limitsOkEach (cfg : Config) (kvs : List (String × Val)) : SFields → Bool
  | .nil => true
  | .cons key node rest =>
    (match alLookup key kvs with
     | Option.none => true
     | some v => limitsOkNode cfg v node) && limitsOkEach cfg kvs rest
termination_by fields => (sizeOf fields, 0, 0)

/-- Limit check of one present value against its schema node. -/
def limitsOkNode (cfg : Config) (v : Val) : SNode → Bool
  | .optional => true
  | .leaf _ => true
  | .obj fs => (match v with | .dict kvs => limitsOkFields cfg kvs fs | _ => true)
  | .listOf e => (match v with | .list xs => limitsOkElems cfg e xs | _ => true)
termination_by node => (sizeOf node, 2, 0)

/-- Limit check of list elements against the element shape. -/
def limitsOkElems (cfg : Config) : SElem → List Val → Bool
  | _, [] => true
  | e, x :: rest => limitsOkElemVal cfg x e && limitsOkElems cfg e rest
termination_by e xs => (sizeOf e, 3, xs.length)

/-- Limit check of one list element against the element shape. -/
def limitsOkElemVal (cfg : Config) (x : Val) : SElem → Bool
  | .ty _ => true
  | .obj fs => (match x with | .dict kvs => limitsOkFields cfg kvs fs | _ => true)
termination_by e => (sizeOf e, 0, 0)

end

/-! ### Helper lemmas: decimal round-trip, strip, association-list lookups -/

/-- Decimal digit characters (as a set; the order is immaterial). -/
def decimalDigits : List Char := ['5', '0', '6', '1', '7', '2', '8', '3', '9', '4']

/-- Accumulation step of reading one more decimal digit character. -/
def decStep (a : Nat) (c : Char) : Nat := a * 10 + (c.toNat - 48)

theorem digitChar_mem_decimalDigits {m : Nat} (h : m < 10) :
    Nat.digitChar m ∈ decimalDigits := by
  interval_cases m <;> decide

theorem digitChar_toNat_sub {m : Nat} (h : m < 10) : (Nat.digitChar m).toNat - 48 = m := by
  interval_cases m <;> decide

theorem digit?_of_mem {c : Char} (h : c ∈ decimalDigits) : digit? c = some (c.toNat - 48) := by
  fin_cases h <;> decide

theorem not_space_of_mem {c : Char} (h : c ∈ decimalDigits) : isPySpace c = false := by
  fin_cases h <;> decide

theorem ne_plus_of_mem {c : Char} (h : c ∈ decimalDigits) : c ≠ '+' := by
  fin_cases h <;> decide

theorem ne_minus_of_mem {c : Char} (h : c ∈ decimalDigits) : c ≠ '-' := by
  fin_cases h <;> decide

theorem natDecimal_mem (n : Nat) : ∀ c ∈ natDecimal n, c ∈ decimalDigits := by
  induction n using Nat.strong_induction_on with
  | _ n ih =>
    rw [natDecimal]
    split
    · intro c hc
      rw [List.mem_singleton] at hc
      subst hc
      exact digitChar_mem_decimalDigits (by omega)
    · intro c hc
      rcases List.mem_append.mp hc with h1 | h2
      · exact ih (n / 10) (Nat.div_lt_self (by omega) (by omega)) c h1
      · rw [List.mem_singleton] at h2
        subst h2
        exact digitChar_mem_decimalDigits (Nat.mod_lt _ (by omega))

theorem natDecimal_ne_nil (n : Nat) : natDecimal n ≠ [] := by
  rw [natDecimal]
  split <;> simp

theorem parseDigitsU_cons_of_mem (acc : Nat) {c : Char} (h : c ∈ decimalDigits)
    (rest : List Char) :
    parseDigitsU acc (c :: rest) = parseDigitsU (acc * 10 + (c.toNat - 48)) rest := by
  fin_cases h <;> rfl

theorem parseUIntDigits_cons_of_mem {c : Char} (h : c ∈ decimalDigits) (rest : List Char) :
    parseUIntDigits (c :: rest) = parseDigitsU (c.toNat - 48) rest := by
  fin_cases h <;> rfl

theorem parseDigitsU_all_digits :
    ∀ (cs : List Char), (∀ c ∈ cs, c ∈ decimalDigits) →
      ∀ acc, parseDigitsU acc cs = some (cs.foldl decStep acc) := by
  intro cs
  induction cs with
  | nil => intro _ acc; simp [parseDigitsU]
  | cons c rest ih =>
    intro h acc
    rw [parseDigitsU_cons_of_mem acc (h c (by simp)) rest,
      ih (fun d hd => h d (by simp [hd])) (acc * 10 + (c.toNat - 48))]
    simp [decStep]

theorem foldl_decStep_natDecimal (n : Nat) :
    ∀ acc, (natDecimal n).foldl decStep acc = acc * 10 ^ (natDecimal n).length + n := by
  induction n using Nat.strong_induction_on with
  | _ n ih =>
    intro acc
    rw [natDecimal]
    split
    · rename_i h
      simp [decStep, digitChar_toNat_sub h]
    · rename_i h
      rw [List.foldl_append, List.length_append, ih (n / 10) (Nat.div_lt_self (by omega) (by omega))]
      simp only [List.foldl_cons, List.foldl_nil, List.length_cons, List.length_nil]
      rw [decStep, digitChar_toNat_sub (Nat.mod_lt _ (by omega))]
      have hp : 10 ^ ((natDecimal (n / 10)).length + (0 + 1)) =
          10 ^ (natDecimal (n / 10)).length * 10 := by
        rw [Nat.zero_add, Nat.pow_succ]
      rw [hp]
      have := Nat.div_add_mod n 10
      ring_nf
      omega

theorem parseUIntDigits_natDecimal (n : Nat) : parseUIntDigits (natDecimal n) = some n := by
  have hmem := natDecimal_mem n
  cases hds : natDecimal n with
  | nil => exact absurd hds (natDecimal_ne_nil n)
  | cons c rest =>
    rw [hds] at hmem
    have hc := digit?_of_mem (hmem c (by simp))
    rw [parseUIntDigits_cons_of_mem (hmem c (by simp)) rest,
      parseDigitsU_all_digits rest (fun d hd => hmem d (by simp [hd])) (c.toNat - 48)]
    have h0 : (c :: rest).foldl decStep 0 = rest.foldl decStep (c.toNat - 48) := by
      simp [decStep]
    rw [← h0, ← hds, foldl_decStep_natDecimal n 0]
    simp

theorem pyStripList_eq_self {cs : List Char} (h : ∀ c ∈ cs, isPySpace c = false) :
    pyStripList cs = cs := by
  unfold pyStripList
  have h1 : cs.dropWhile isPySpace = cs := by
    cases cs with
    | nil => rfl
    | cons c rest => simp [List.dropWhile_cons, h c (by simp)]
  rw [h1]
  have h2 : cs.reverse.dropWhile isPySpace = cs.reverse := by
    cases hrv : cs.reverse with
    | nil => rfl
    | cons c rest =>
      have : c ∈ cs := by
        rw [← List.mem_reverse, hrv]
        simp
      simp [List.dropWhile_cons, h c this]
  rw [h2, List.reverse_reverse]

theorem intOfString_intRepr (i : Int) : intOfString (intRepr i) = some i := by
  cases i with
  | ofNat n =>
    have hmem := natDecimal_mem n
    show intOfString (String.mk (natDecimal n)) = some (Int.ofNat n)
    unfold intOfString
    have htl : (String.mk (natDecimal n)).toList = natDecimal n := rfl
    rw [htl, pyStripList_eq_self (fun c hc => not_space_of_mem (hmem c hc))]
    cases hds : natDecimal n with
    | nil => exact absurd hds (natDecimal_ne_nil n)
    | cons c rest =>
      rw [hds] at hmem
      have hplus := ne_plus_of_mem (hmem c (by simp))
      have hminus := ne_minus_of_mem (hmem c (by simp))
      have hp : parseUIntDigits (c :: rest) = some n := by
        rw [← hds]; exact parseUIntDigits_natDecimal n
      split
      · rename_i heq
        exact absurd (List.head_eq_of_cons_eq heq.symm) (fun hh => hplus hh.symm)
      · rename_i heq
        exact absurd (List.head_eq_of_cons_eq heq.symm) (fun hh => hminus hh.symm)
      · rename_i cs2 h1 h2
        rw [hp]
        rfl
  | negSucc n =>
    have hmem := natDecimal_mem (n + 1)
    show intOfString (String.mk ('-' :: natDecimal (n + 1))) = some (Int.negSucc n)
    unfold intOfString
    have htl : (String.mk ('-' :: natDecimal (n + 1))).toList = '-' :: natDecimal (n + 1) := rfl
    rw [htl, pyStripList_eq_self ?_]
    · split
      · rename_i heq
        exact absurd (List.head_eq_of_cons_eq heq.symm) (by decide)
      · rename_i rest heq
        have ht : natDecimal (n + 1) = rest := List.tail_eq_of_cons_eq heq
        rw [← ht, parseUIntDigits_natDecimal (n + 1)]
        simp [Int.negSucc_eq]
      · rename_i cs2 h1 h2
        exact absurd rfl (h2 (natDecimal (n + 1)))
    · intro c hc
      rcases List.mem_cons.mp hc with h1 | h2
      · subst h1; decide
      · exact not_space_of_mem (hmem c h2)

theorem pyStrip_intRepr (i : Int) : pyStrip (intRepr i) = intRepr i := by
  cases i with
  | ofNat n =>
    show pyStrip (String.mk (natDecimal n)) = String.mk (natDecimal n)
    unfold pyStrip
    rw [show (String.mk (natDecimal n)).toList = natDecimal n from rfl,
      pyStripList_eq_self (fun c hc => not_space_of_mem (natDecimal_mem n c hc))]
  | negSucc n =>
    show pyStrip (String.mk ('-' :: natDecimal (n + 1))) = String.mk ('-' :: natDecimal (n + 1))
    unfold pyStrip
    rw [show (String.mk ('-' :: natDecimal (n + 1))).toList = '-' :: natDecimal (n + 1) from rfl,
      pyStripList_eq_self ?_]
    intro c hc
    rcases List.mem_cons.mp hc with h1 | h2
    · subst h1; decide
    · exact not_space_of_mem (natDecimal_mem (n + 1) c h2)

theorem alLookup_any (key : String) (kvs : List (String × Val)) :
    (kvs.any fun p => decide (p.1 = key)) = (alLookup key kvs).isSome := by
  induction kvs with
  | nil => simp [alLookup]
  | cons p rest ih =>
    obtain ⟨k2, v⟩ := p
    by_cases h : k2 = key <;> simp [alLookup, h, ih]

/-- Entry behaviour of `_validate_against_schema` on a dict within the key
bound: the three size checks pass and the field loop runs. -/
theorem validateAgainstSchema_dict (kvs : List (String × Val)) (fields : SFields)
    (mode : Mode) (cfg : Config) (path : String) (h : kvs.length ≤ cfg.maxDictKeys) :
    validateAgainstSchema (.dict kvs) fields mode cfg path =
      match validateFields (.dict kvs) fields mode cfg path with
      | .error e => .error e
      | .ok l => .ok (.dict l) := by
  have h2 : ¬ (kvs.length > cfg.maxDictKeys) := by omega
  simp only [validateAgainstSchema]
  simp [h2]

/-! ### Claim C1: size limits on leaf values -/

/-- String of 10000 `x` characters, the spec §8 size-enforcement example. -/
def longStr : String := String.mk (List.replicate 10000 'x')

/-- C1 (code bug witnessed): a string *field value* of length 10000 under the
default max string length 8192 does NOT fail with `size_limit` — it validates
successfully in both STRICT and COERCE modes, because `_validate_against_schema`
checks `max_str_len` only on the value it is entered with (the top-level
payload or a nested-object value), while a leaf field value goes through
`_validate_type`, which has no size check.  The repository's own test
`test_size_limits_enforced` expects `validate({"data": "x"*10000}, Schema({"data": str}))`
to raise `size_limit`, so the claim states the intended behaviour and the code
breaks it. -/
theorem c1_leaf_string_size_limit_not_enforced :
    longStr.length = 10000 ∧ defaultConfig.maxStrLen = 8192 ∧
    validateAgainstSchema (.dict [("data", .str longStr)])
      (.cons "data" (.leaf .str) .nil) .strict defaultConfig "root"
      = .ok (.dict [("data", .str longStr)]) ∧
    validateAgainstSchema (.dict [("data", .str longStr)])
      (.cons "data" (.leaf .str) .nil) .coerce defaultConfig "root"
      = .ok (.dict [("data", .str longStr)]) := by
  refine ⟨?_, rfl, ?_, ?_⟩
  · have h1 : (String.mk (List.replicate 10000 'x')).length
        = (List.replicate 10000 'x').length := rfl
    rw [show longStr = String.mk (List.replicate 10000 'x') from rfl, h1,
      List.length_replicate]
  · simp [validateAgainstSchema, validateFields, keyNotIn, getItem, alLookup,
      validateType, pyIsInstance, defaultConfig]
  · simp [validateAgainstSchema, validateFields, keyNotIn, getItem, alLookup,
      validateType, pyIsInstance, defaultConfig]

/-! ### Claim C10: booleans pass the integer leaf check -/

/-- C10: because `_validate_type` tests `isinstance(value, expected_type)` and
Python's `bool` is a subclass of `int`, a boolean supplied for a field declared
as the integer leaf type is accepted and returned unchanged (still a boolean)
in both STRICT and COERCE modes — at the leaf check itself and through a
schema declaring such a field. -/
theorem c10_bool_accepted_at_int_leaf :
    (∀ (b : Bool) (mode : Mode) (path : String),
      validateType (.bool b) .int mode path = .ok (.bool b)) ∧
    (∀ (b : Bool) (mode : Mode) (k : String),
      validateAgainstSchema (.dict [(k, .bool b)]) (.cons k (.leaf .int) .nil) mode
        defaultConfig "root" = .ok (.dict [(k, .bool b)])) := by
  constructor
  · intro b mode path
    simp [validateType, pyIsInstance]
  · intro b mode k
    simp [validateAgainstSchema, validateFields, keyNotIn, getItem, alLookup,
      validateType, pyIsInstance, defaultConfig]

/-! ### Claim C2: where `None` is a pass-through -/

/-- C2 counterexample: a `None` supplied where a non-optional nested *object*
node is declared is accepted (validation succeeds and passes the `None`
through), because the `if data is None: return None` at the top of
`_validate_against_schema` runs before the schema node is even inspected.
The claim says a `None` at any non-optional node (leaf, object, or list)
fails validation; at an object node it does not. -/
theorem c2_counterexample_none_at_object_node :
    validateAgainstSchema (.dict [("a", Val.none)])
      (.cons "a" (.obj (.cons "b" (.leaf .str) .nil)) .nil) .strict defaultConfig "root"
      = .ok (.dict [("a", Val.none)]) := by
  simp [validateAgainstSchema, validateFields, keyNotIn, getItem, alLookup, defaultConfig]

/-- C2 as amended: (1) a `None` value entering the recursive validator is a
pass-through success at every schema node — in particular at non-optional
nested object nodes; (2) an *absent* field is accepted iff its node is the
optional marker: absence at a non-optional node fails with
`Missing required field`, and (3) absence at an optional node skips the
field; (4) a `None` at a leaf node fails STRICT validation with a type
mismatch; (5) a `None` at a list node fails in both modes. -/
theorem c2_amended_none_passthrough :
    (∀ (fields : SFields) (mode : Mode) (cfg : Config) (path : String),
      validateAgainstSchema Val.none fields mode cfg path = .ok Val.none) ∧
    (∀ (kvs : List (String × Val)) (key : String) (node : SNode) (rest : SFields)
      (mode : Mode) (cfg : Config) (path : String),
      alLookup key kvs = Option.none → node ≠ SNode.optional →
      validateFields (.dict kvs) (.cons key node rest) mode cfg path
        = .error (verr (path ++ "." ++ key) "Missing required field")) ∧
    (∀ (kvs : List (String × Val)) (key : String) (rest : SFields)
      (mode : Mode) (cfg : Config) (path : String),
      alLookup key kvs = Option.none →
      validateFields (.dict kvs) (.cons key SNode.optional rest) mode cfg path
        = validateFields (.dict kvs) rest mode cfg path) ∧
    (∀ (t : PyType) (path : String),
      validateType Val.none t .strict path
        = .error (verr path ("Expected " ++ t.pyName ++ ", got NoneType"))) ∧
    (∀ (e : SElem) (mode : Mode) (cfg : Config) (fpath : String),
      validateListField Val.none e mode cfg fpath
        = .error (verr fpath (match mode with
            | .strict => "Expected list, got NoneType"
            | .coerce => "Cannot coerce to list"))) := by
  refine ⟨?_, ?_, ?_, ?_, ?_⟩
  · intro fields mode cfg path
    simp [validateAgainstSchema]
  · intro kvs key node rest mode cfg path hlk hopt
    have hany : (kvs.any fun p => decide (p.1 = key)) = false := by
      rw [alLookup_any, hlk]
      rfl
    cases node with
    | optional => exact absurd rfl hopt
    | leaf t => simp [validateFields, keyNotIn, hany]
    | obj fs => simp [validateFields, keyNotIn, hany]
    | listOf e => simp [validateFields, keyNotIn, hany]
  · intro kvs key rest mode cfg path hlk
    have hany : (kvs.any fun p => decide (p.1 = key)) = false := by
      rw [alLookup_any, hlk]
      rfl
    simp [validateFields, keyNotIn, hany]
  · intro t path
    cases t <;> simp [validateType, pyIsInstance, typeName, PyType.pyName]
  · intro e mode cfg fpath
    cases mode <;> simp [validateListField, coerceListValue, typeName]

/-- C2 amended, witness: the hypotheses of the amended statement hold at
concrete inputs — a missing required leaf field fails, and a missing optional
field is skipped. -/
theorem c2_amended_none_passthrough_witness :
    (validateFields (.dict []) (.cons "k" (.leaf .str) .nil) .strict defaultConfig "root"
      = .error (verr "root.k" "Missing required field")) ∧
    (validateFields (.dict []) (.cons "age" SNode.optional .nil) .strict defaultConfig "root"
      = validateFields (.dict []) SFields.nil .strict defaultConfig "root") :=
  ⟨c2_amended_none_passthrough.2.1 [] "k" (.leaf .str) .nil .strict defaultConfig "root"
      rfl (by simp),
    c2_amended_none_passthrough.2.2.1 [] "age" .nil .strict defaultConfig "root" rfl⟩

/-! ### Claim C9: COERCE round-trip for canonically rendered scalars -/

/-- Scalar leaf type of a value, when it is an int, float, or bool (the
bool case must come first, as in Python `True` is also an `int`). -/
def scalarType : Val → Option PyType
  | .bool _ => some .bool
  | .int _ => some .int
  | .float _ => some .float
  | _ => Option.none

/-- Canonical float literal: accepted by `float(...)` and free of surrounding
whitespace — both properties hold of every `repr(x)` CPython produces. -/
def canonFloatLit (s : String) : Bool :=
  isFloatLitStr s && (pyStrip s = s)

/-- Values covered by the coercion round-trip claim: ints and bools
unconditionally, floats whose stored literal is canonical. -/
def canonScalar : Val → Bool
  | .int _ => true
  | .bool _ => true
  | .float f => canonFloatLit f.lit
  | _ => false

/-- C9: for every integer, float, or boolean `x` rendered to its canonical
string form `str(x)`, COERCE validation of `{field: str(x)}` against a schema
typing that field as `x`'s original type succeeds and returns `x` unchanged in
value and restored to its original type. -/
theorem c9_coerce_round_trip (x : Val) (t : PyType) (k : String)
    (hs : scalarType x = some t) (hc : canonScalar x = true) :
    validateAgainstSchema (.dict [(k, .str (pyStr x))]) (.cons k (.leaf t) .nil)
      .coerce defaultConfig "root" = .ok (.dict [(k, x)]) := by
  have hlen : [(k, Val.str (pyStr x))].length ≤ defaultConfig.maxDictKeys := by
    simp [defaultConfig]
  rw [validateAgainstSchema_dict _ _ _ _ _ hlen]
  cases x with
  | int i =>
    cases hs
    have hvt : ∀ p, validateType (.str (pyStr (.int i))) .int .coerce p = .ok (.int i) := by
      intro p
      show validateType (.str (intRepr i)) .int .coerce p = .ok (.int i)
      simp only [validateType, pyIsInstance]
      rw [pyStrip_intRepr, intOfString_intRepr]
      rfl
    simp [validateFields, keyNotIn, getItem, alLookup, hvt]
  | bool b =>
    cases hs
    have hvt : ∀ p, validateType (.str (pyStr (.bool b))) .bool .coerce p = .ok (.bool b) := by
      intro p
      cases b <;> rfl
    simp [validateFields, keyNotIn, getItem, alLookup, hvt]
  | float f =>
    cases hs
    have hlit : isFloatLitStr f.lit = true ∧ pyStrip f.lit = f.lit := by
      have := hc
      simp [canonScalar, canonFloatLit] at this
      exact this
    have hvt : ∀ p, validateType (.str (pyStr (.float f))) .float .coerce p
        = .ok (.float f) := by
      intro p
      show validateType (.str f.lit) .float .coerce p = .ok (.float f)
      simp only [validateType, pyIsInstance]
      rw [show pyStrip f.lit = f.lit from hlit.2]
      simp only [floatOfString, hlit.1, if_true]
      rw [show pyStrip f.lit = f.lit from hlit.2]
      rfl
    simp [validateFields, keyNotIn, getItem, alLookup, hvt]
  | none => exact absurd hs (by simp [scalarType])
  | str s => exact absurd hs (by simp [scalarType])
  | list xs => exact absurd hs (by simp [scalarType])
  | dict kvs => exact absurd hs (by simp [scalarType])

/-- C9 witness: the round-trip at the concrete float 3.14 (canonical repr
`"3.14"`), restoring the float from its rendered string. -/
theorem c9_coerce_round_trip_witness :
    validateAgainstSchema (.dict [("price", .str (pyStr (.float ⟨"3.14"⟩)))])
      (.cons "price" (.leaf .float) .nil) .coerce defaultConfig "root"
      = .ok (.dict [("price", .float ⟨"3.14"⟩)]) :=
  c9_coerce_round_trip (.float ⟨"3.14"⟩) .float "price" rfl (by decide)

/-! ### Claim C7: fail-fast in declared-field order -/

/-- Concatenation of schema field lists. -/
def SFields.append : SFields → SFields → SFields
  | .nil, tail => tail
  | .cons k n rest, tail => .cons k n (SFields.append rest tail)

/-- An error while processing a field's own step (witnessed on the singleton
schema holding just that field) short-circuits the loop no matter what
fields are declared after it. -/
theorem validateFields_cons_error (data : Val) (k : String) (n : SNode) (rest : SFields)
    (mode : Mode) (cfg : Config) (path : String) (e : PyErr)
    (h : validateFields data (.cons k n .nil) mode cfg path = .error e) :
    validateFields data (.cons k n rest) mode cfg path = .error e := by
  cases n with
  | optional =>
    simp only [validateFields] at h ⊢
    cases hk : keyNotIn k data with
    | error e2 => rw [hk] at h; exact h
    | ok b =>
      rw [hk] at h
      cases b with
      | true => simp at h
      | false =>
        cases hg : getItem data k with
        | error e2 => rw [hg] at h; exact h
        | ok v => rw [hg] at h; simp at h
  | leaf t =>
    simp only [validateFields] at h ⊢
    cases hk : keyNotIn k data with
    | error e2 => rw [hk] at h; exact h
    | ok b =>
      rw [hk] at h
      cases b with
      | true => exact h
      | false =>
        cases hg : getItem data k with
        | error e2 => rw [hg] at h; exact h
        | ok v =>
          rw [hg] at h
          simp only [] at h ⊢
          cases hv : validateType v t mode (path ++ "." ++ k) with
          | error e2 => rw [hv] at h; exact h
          | ok v2 => rw [hv] at h; simp at h
  | obj fs =>
    simp only [validateFields] at h ⊢
    cases hk : keyNotIn k data with
    | error e2 => rw [hk] at h; exact h
    | ok b =>
      rw [hk] at h
      cases b with
      | true => exact h
      | false =>
        cases hg : getItem data k with
        | error e2 => rw [hg] at h; exact h
        | ok v =>
          rw [hg] at h
          simp only [] at h ⊢
          cases hv : validateAgainstSchema v fs mode cfg (path ++ "." ++ k) with
          | error e2 => rw [hv] at h; exact h
          | ok v2 => rw [hv] at h; simp at h
  | listOf el =>
    simp only [validateFields] at h ⊢
    cases hk : keyNotIn k data with
    | error e2 => rw [hk] at h; exact h
    | ok b =>
      rw [hk] at h
      cases b with
      | true => exact h
      | false =>
        cases hg : getItem data k with
        | error e2 => rw [hg] at h; exact h
        | ok v =>
          rw [hg] at h
          simp only [] at h ⊢
          cases hv : validateListField v el mode cfg (path ++ "." ++ k) with
          | error e2 => rw [hv] at h; exact h
          | ok v2 => rw [hv] at h; simp at h

/-- An error-free declared prefix passes control to the remaining fields: if
the prefix validates and the tail fails, the whole declaration list fails with
the tail's error. -/
theorem validateFields_append_error (data : Val) (pre : SFields) :
    ∀ (tail : SFields) (mode : Mode) (cfg : Config) (path : String)
      (l : List (String × Val)) (e : PyErr),
      validateFields data pre mode cfg path = .ok l →
      validateFields data tail mode cfg path = .error e →
      validateFields data (SFields.append pre tail) mode cfg path = .error e := by
  cases pre with
  | nil =>
    intro tail mode cfg path l e _ h2
    rw [SFields.append]
    exact h2
  | cons k n rest =>
    have ih := validateFields_append_error data rest
    intro tail mode cfg path l e h1 h2
    rw [SFields.append]
    cases n with
    | optional =>
      simp only [validateFields] at h1 ⊢
      cases hk : keyNotIn k data with
      | error e2 => rw [hk] at h1; simp at h1
      | ok b =>
        rw [hk] at h1
        cases b with
        | true =>
          replace h1 : validateFields data rest mode cfg path = .ok l := h1
          exact ih tail mode cfg path l e h1 h2
        | false =>
          cases hg : getItem data k with
          | error e2 => rw [hg] at h1; simp at h1
          | ok v =>
            rw [hg] at h1
            simp only [] at h1 ⊢
            cases hr : validateFields data rest mode cfg path with
            | error e2 => rw [hr] at h1; simp at h1
            | ok l2 => rw [ih tail mode cfg path l2 e hr h2]
    | leaf t =>
      simp only [validateFields] at h1 ⊢
      cases hk : keyNotIn k data with
      | error e2 => rw [hk] at h1; simp at h1
      | ok b =>
        rw [hk] at h1
        cases b with
        | true => simp at h1
        | false =>
          cases hg : getItem data k with
          | error e2 => rw [hg] at h1; simp at h1
          | ok v =>
            rw [hg] at h1
            simp only [] at h1 ⊢
            cases hv : validateType v t mode (path ++ "." ++ k) with
            | error e2 => rw [hv] at h1; simp at h1
            | ok v2 =>
              rw [hv] at h1
              simp only [] at h1 ⊢
              cases hr : validateFields data rest mode cfg path with
              | error e2 => rw [hr] at h1; simp at h1
              | ok l2 => rw [ih tail mode cfg path l2 e hr h2]
    | obj fs =>
      simp only [validateFields] at h1 ⊢
      cases hk : keyNotIn k data with
      | error e2 => rw [hk] at h1; simp at h1
      | ok b =>
        rw [hk] at h1
        cases b with
        | true => simp at h1
        | false =>
          cases hg : getItem data k with
          | error e2 => rw [hg] at h1; simp at h1
          | ok v =>
            rw [hg] at h1
            simp only [] at h1 ⊢
            cases hv : validateAgainstSchema v fs mode cfg (path ++ "." ++ k) with
            | error e2 => rw [hv] at h1; simp at h1
            | ok v2 =>
              rw [hv] at h1
              simp only [] at h1 ⊢
              cases hr : validateFields data rest mode cfg path with
              | error e2 => rw [hr] at h1; simp at h1
              | ok l2 => rw [ih tail mode cfg path l2 e hr h2]
    | listOf el =>
      simp only [validateFields] at h1 ⊢
      cases hk : keyNotIn k data with
      | error e2 => rw [hk] at h1; simp at h1
      | ok b =>
        rw [hk] at h1
        cases b with
        | true => simp at h1
        | false =>
          cases hg : getItem data k with
          | error e2 => rw [hg] at h1; simp at h1
          | ok v =>
            rw [hg] at h1
            simp only [] at h1 ⊢
            cases hv : validateListField v el mode cfg (path ++ "." ++ k) with
            | error e2 => rw [hv] at h1; simp at h1
            | ok v2 =>
              rw [hv] at h1
              simp only [] at h1 ⊢
              cases hr : validateFields data rest mode cfg path with
              | error e2 => rw [hr] at h1; simp at h1
              | ok l2 => rw [ih tail mode cfg path l2 e hr h2]
termination_by sizeOf pre

/-- C7: validation fails fast on the first error in declared-field order and
returns no partial result.  If every field declared before `a` validates, and
field `a`'s own step fails with error `ea` (whose path is `path.a`), then the
whole STRICT validation fails with exactly `ea`, regardless of any further
declared fields — in particular regardless of a second invalid field `b`
declared after `a`. -/
theorem c7_fail_fast_first_declared_error (kvs : List (String × Val)) (pre : SFields)
    (ka : String) (na : SNode) (rest : SFields) (cfg : Config) (path : String)
    (l : List (String × Val)) (ea : VError)
    (hsize : kvs.length ≤ cfg.maxDictKeys)
    (hpre : validateFields (.dict kvs) pre .strict cfg path = .ok l)
    (ha : validateFields (.dict kvs) (.cons ka na .nil) .strict cfg path = .error (.vErr ea)) :
    validateAgainstSchema (.dict kvs) (SFields.append pre (.cons ka na rest)) .strict cfg path
      = .error (.vErr ea) := by
  rw [validateAgainstSchema_dict _ _ _ _ _ hsize,
    validateFields_append_error (.dict kvs) pre (.cons ka na rest) .strict cfg path l
      (.vErr ea) hpre (validateFields_cons_error _ _ _ _ _ _ _ _ ha)]

/-- C7 witness: schema `{a: int, b: int}` with both fields invalid strings
fails with the first-declared field's path `root.a`, not `root.b`. -/
theorem c7_fail_fast_first_declared_error_witness :
    validateAgainstSchema (.dict [("a", .str "x"), ("b", .str "y")])
      (SFields.append .nil (.cons "a" (.leaf .int) (.cons "b" (.leaf .int) .nil)))
      .strict defaultConfig "root"
      = .error (.vErr ⟨"root.a", "Expected int, got str", 0, Option.none⟩) :=
  c7_fail_fast_first_declared_error [("a", .str "x"), ("b", .str "y")] .nil "a" (.leaf .int)
    (.cons "b" (.leaf .int) .nil) defaultConfig "root" [] ⟨"root.a", "Expected int, got str", 0, Option.none⟩
    (by simp [defaultConfig])
    (by simp [validateFields])
    (by simp [validateFields, keyNotIn, getItem, alLookup, validateType, pyIsInstance,
      typeName, PyType.pyName, verr])

/-! ### Claim C8: STRICT passthrough of already-matching values -/

/-- An `isinstance` match makes `_validate_type` a pass-through in any mode. -/
theorem validateType_isinstance (v : Val) (t : PyType) (mode : Mode) (path : String)
    (h : pyIsInstance v t = true) : validateType v t mode path = .ok v := by
  simp [validateType, h]

theorem matchesElems_ty {t : PyType} {xs : List Val}
    (h : matchesElems (.ty t) xs = true) : ∀ x ∈ xs, pyIsInstance x t = true := by
  induction xs with
  | nil => simp
  | cons x rest ih =>
    simp only [matchesElems, matchesElemVal, Bool.and_eq_true] at h
    intro y hy
    rcases List.mem_cons.mp hy with h1 | h2
    · subst h1; exact h.1
    · exact ih h.2 y h2

theorem restrictElems_ty (t : PyType) : ∀ xs, restrictElems (.ty t) xs = xs := by
  intro xs
  induction xs with
  | nil => simp [restrictElems]
  | cons x rest ih => simp [restrictElems, restrictElemVal, ih]

theorem matchesElemVal_obj (x : Val) (fs : SFields) :
    matchesElemVal x (.obj fs) = matchesNode x (.obj fs) := by
  cases x <;> simp [matchesElemVal, matchesNode]

theorem limitsOkElemVal_obj (cfg : Config) (x : Val) (fs : SFields) :
    limitsOkElemVal cfg x (.obj fs) = limitsOkNode cfg x (.obj fs) := by
  cases x <;> simp [limitsOkElemVal, limitsOkNode]

theorem restrictElemVal_obj (x : Val) (fs : SFields) :
    restrictElemVal x (.obj fs) = restrictNode x (.obj fs) := by
  cases x <;> simp [restrictElemVal, restrictNode]

theorem validateElemsTy_all (t : PyType) (mode : Mode) (fpath : String) :
    ∀ (xs : List Val) (i : Nat), (∀ x ∈ xs, pyIsInstance x t = true) →
      validateElemsTy t mode fpath i xs = .ok xs := by
  intro xs
  induction xs with
  | nil => intro i _; simp [validateElemsTy]
  | cons x rest ih =>
    intro i h
    simp only [validateElemsTy]
    rw [validateType_isinstance x t mode _ (h x (by simp))]
    simp only []
    rw [ih (i + 1) (fun y hy => h y (by simp [hy]))]

mutual

/-- Passthrough at an object node: a dict value whose fields already match,
with key counts within bounds, validates to its schema-restriction. -/
theorem validateAgainstSchema_of_matches (v : Val) (fs : SFields) (mode : Mode)
    (cfg : Config) (path : String)
    (hm : matchesNode v (.obj fs) = true) (hl : limitsOkNode cfg v (.obj fs) = true) :
    validateAgainstSchema v fs mode cfg path = .ok (restrictNode v (.obj fs)) := by
  cases v with
  | dict kvs =>
    simp only [matchesNode] at hm
    simp only [limitsOkNode, limitsOkFields, Bool.and_eq_true, decide_eq_true_eq] at hl
    rw [validateAgainstSchema_dict kvs fs mode cfg path hl.1,
      validateFields_of_matches kvs fs mode cfg path hm hl.2]
    simp [restrictNode]
  | none => simp [matchesNode] at hm
  | bool b => simp [matchesNode] at hm
  | int i => simp [matchesNode] at hm
  | float f => simp [matchesNode] at hm
  | str s => simp [matchesNode] at hm
  | list xs => simp [matchesNode] at hm
termination_by (sizeOf fs, 1, 0)

/-- Passthrough of the field loop on a matching dict. -/
theorem validateFields_of_matches (kvs : List (String × Val)) (fs : SFields) (mode : Mode)
    (cfg : Config) (path : String)
    (hm : matchesFields kvs fs = true) (hl : limitsOkEach cfg kvs fs = true) :
    validateFields (.dict kvs) fs mode cfg path = .ok (restrictFields kvs fs) := by
  cases fs with
  | nil => simp [validateFields, restrictFields]
  | cons key node rest =>
    cases node with
    | optional =>
      simp only [matchesFields, Bool.and_eq_true] at hm
      simp only [limitsOkEach, Bool.and_eq_true] at hl
      obtain ⟨hm1, hm2⟩ := hm
      obtain ⟨hl1, hl2⟩ := hl
      cases halk : alLookup key kvs with
      | none =>
        have hkn : keyNotIn key (.dict kvs) = .ok true := by
          simp [keyNotIn, alLookup_any, halk]
        simp only [validateFields]
        rw [hkn]
        simp only []
        rw [validateFields_of_matches kvs rest mode cfg path hm2 hl2]
        simp [restrictFields, halk]
      | some v =>
        have hkn : keyNotIn key (.dict kvs) = .ok false := by
          simp [keyNotIn, alLookup_any, halk]
        have hgi : getItem (.dict kvs) key = .ok v := by
          simp [getItem, halk]
        simp only [validateFields]
        rw [hkn]
        simp only []
        rw [hgi]
        simp only []
        rw [validateFields_of_matches kvs rest mode cfg path hm2 hl2]
        simp [restrictFields, halk, restrictNode]
    | leaf t =>
      simp only [matchesFields, Bool.and_eq_true] at hm
      simp only [limitsOkEach, Bool.and_eq_true] at hl
      obtain ⟨hm1, hm2⟩ := hm
      obtain ⟨hl1, hl2⟩ := hl
      cases halk : alLookup key kvs with
      | none => rw [halk] at hm1; simp at hm1
      | some v =>
        rw [halk] at hm1 hl1
        replace hm1 : matchesNode v (.leaf t) = true := hm1
        replace hl1 : limitsOkNode cfg v (.leaf t) = true := hl1
        simp only [matchesNode] at hm1
        have hkn : keyNotIn key (.dict kvs) = .ok false := by
          simp [keyNotIn, alLookup_any, halk]
        have hgi : getItem (.dict kvs) key = .ok v := by
          simp [getItem, halk]
        simp only [validateFields]
        rw [hkn]
        simp only []
        rw [hgi]
        simp only []
        rw [validateType_isinstance v t mode _ hm1]
        simp only []
        rw [validateFields_of_matches kvs rest mode cfg path hm2 hl2]
        simp [restrictFields, halk, restrictNode]
    | obj fs2 =>
      simp only [matchesFields, Bool.and_eq_true] at hm
      simp only [limitsOkEach, Bool.and_eq_true] at hl
      obtain ⟨hm1, hm2⟩ := hm
      obtain ⟨hl1, hl2⟩ := hl
      cases halk : alLookup key kvs with
      | none => rw [halk] at hm1; simp at hm1
      | some v =>
        rw [halk] at hm1 hl1
        replace hm1 : matchesNode v (.obj fs2) = true := hm1
        replace hl1 : limitsOkNode cfg v (.obj fs2) = true := hl1
        have hkn : keyNotIn key (.dict kvs) = .ok false := by
          simp [keyNotIn, alLookup_any, halk]
        have hgi : getItem (.dict kvs) key = .ok v := by
          simp [getItem, halk]
        simp only [validateFields]
        rw [hkn]
        simp only []
        rw [hgi]
        simp only []
        rw [validateAgainstSchema_of_matches v fs2 mode cfg (path ++ "." ++ key) hm1 hl1]
        simp only []
        rw [validateFields_of_matches kvs rest mode cfg path hm2 hl2]
        simp [restrictFields, halk]
    | listOf e =>
      simp only [matchesFields, Bool.and_eq_true] at hm
      simp only [limitsOkEach, Bool.and_eq_true] at hl
      obtain ⟨hm1, hm2⟩ := hm
      obtain ⟨hl1, hl2⟩ := hl
      cases halk : alLookup key kvs with
      | none => rw [halk] at hm1; simp at hm1
      | some v =>
        rw [halk] at hm1 hl1
        replace hm1 : matchesNode v (.listOf e) = true := hm1
        replace hl1 : limitsOkNode cfg v (.listOf e) = true := hl1
        have hkn : keyNotIn key (.dict kvs) = .ok false := by
          simp [keyNotIn, alLookup_any, halk]
        have hgi : getItem (.dict kvs) key = .ok v := by
          simp [getItem, halk]
        simp only [validateFields]
        rw [hkn]
        simp only []
        rw [hgi]
        simp only []
        rw [validateListField_of_matches v e mode cfg (path ++ "." ++ key) hm1 hl1]
        simp only []
        rw [validateFields_of_matches kvs rest mode cfg path hm2 hl2]
        simp [restrictFields, halk]
termination_by (sizeOf fs, 0, 0)

/-- Passthrough at a list node: a list value whose elements already match the
element shape validates to the elementwise restriction. -/
theorem validateListField_of_matches (v : Val) (e : SElem) (mode : Mode) (cfg : Config)
    (fpath : String)
    (hm : matchesNode v (.listOf e) = true) (hl : limitsOkNode cfg v (.listOf e) = true) :
    validateListField v e mode cfg fpath = .ok (restrictNode v (.listOf e)) := by
  cases v with
  | list xs =>
    simp only [matchesNode] at hm
    simp only [limitsOkNode] at hl
    cases e with
    | ty t =>
      simp only [validateListField, coerceListValue, pyIter]
      rw [validateElemsTy_all t mode fpath xs 0 (matchesElems_ty hm)]
      simp [restrictNode, restrictElems_ty]
    | obj fs2 =>
      simp only [validateListField, coerceListValue, pyIter]
      rw [validateElemsObj_of_matches xs fs2 mode cfg fpath 0 hm hl]
      simp [restrictNode]
  | none => simp [matchesNode] at hm
  | bool b => simp [matchesNode] at hm
  | int i => simp [matchesNode] at hm
  | float f => simp [matchesNode] at hm
  | str s => simp [matchesNode] at hm
  | dict kvs => simp [matchesNode] at hm
termination_by (sizeOf e, 2, 0)

/-- Passthrough of the element loop over matching object elements. -/
theorem validateElemsObj_of_matches (xs : List Val) (fsE : SFields) (mode : Mode)
    (cfg : Config) (fpath : String) (i : Nat)
    (hm : matchesElems (.obj fsE) xs = true) (hl : limitsOkElems cfg (.obj fsE) xs = true) :
    validateElemsObj fsE mode cfg fpath i xs = .ok (restrictElems (.obj fsE) xs) := by
  cases xs with
  | nil => simp [validateElemsObj, restrictElems]
  | cons x rest =>
    simp only [matchesElems, Bool.and_eq_true] at hm
    simp only [limitsOkElems, Bool.and_eq_true] at hl
    obtain ⟨hm1, hm2⟩ := hm
    obtain ⟨hl1, hl2⟩ := hl
    rw [matchesElemVal_obj] at hm1
    rw [limitsOkElemVal_obj] at hl1
    simp only [validateElemsObj]
    rw [validateAgainstSchema_of_matches x fsE mode cfg (idxPath fpath i) hm1 hl1]
    simp only []
    rw [validateElemsObj_of_matches rest fsE mode cfg fpath (i + 1) hm2 hl2]
    simp [restrictElems, restrictElemVal_obj]
termination_by (sizeOf fsE, 3, xs.length)

end

/-- C8 counterexample: success of STRICT validation on an already-matching
value additionally depends on the configured size limits, which the claim
does not allow for — a matching one-field object fails with `size_limit`
under a configuration whose max key count is 0. -/
theorem c8_counterexample_limits_break_passthrough :
    matchesFields [("a", .int 1)] (.cons "a" SNode.optional .nil) = true ∧
    validateAgainstSchema (.dict [("a", .int 1)]) (.cons "a" SNode.optional .nil) .strict
      { maxDictKeys := 0 } "root"
      = .error (verr "root" "size_limit") := by
  constructor
  · simp [matchesFields, matchesNode, alLookup]
  · simp [validateAgainstSchema]

/-- C8 as amended: for every value already matching its schema's declared
types *whose object values' key counts are within the configured max key
count*, STRICT validation succeeds and returns the value restricted
recursively to schema-declared keys (so an extra undeclared key is absent
from the result). -/
theorem c8_strict_passthrough_restricted (kvs : List (String × Val)) (fs : SFields)
    (cfg : Config) (path : String)
    (hm : matchesFields kvs fs = true) (hl : limitsOkFields cfg kvs fs = true) :
    validateAgainstSchema (.dict kvs) fs .strict cfg path
      = .ok (.dict (restrictFields kvs fs)) := by
  have hm2 : matchesNode (.dict kvs) (.obj fs) = true := by simp [matchesNode, hm]
  have hl2 : limitsOkNode cfg (.dict kvs) (.obj fs) = true := by simp [limitsOkNode, hl]
  have h := validateAgainstSchema_of_matches (.dict kvs) fs .strict cfg path hm2 hl2
  simpa [restrictNode] using h

/-- C8 witness: an input with the declared field well-typed plus an extra
undeclared key validates in STRICT mode and the extra key is dropped. -/
theorem c8_strict_passthrough_restricted_witness :
    validateAgainstSchema (.dict [("a", .str "x"), ("extra", .int 7)])
      (.cons "a" (.leaf .str) .nil) .strict defaultConfig "root"
      = .ok (.dict [("a", .str "x")]) := by
  have h := c8_strict_passthrough_restricted [("a", .str "x"), ("extra", .int 7)]
    (.cons "a" (.leaf .str) .nil) defaultConfig "root"
    (by simp [matchesFields, matchesNode, alLookup, pyIsInstance])
    (by simp [limitsOkFields, limitsOkEach, limitsOkNode, alLookup, defaultConfig])
  simpa [restrictFields, restrictNode, alLookup] using h

/-! ### Orchestrator claims C3-C6: the event trace of `validate` -/

/-- Discriminator for sleep events. -/
def isSleep : Event → Bool
  | .sleep _ => true
  | _ => false

/-- Discriminator for reporter hand-offs. -/
def isReport : Event → Bool
  | .report _ => true
  | _ => false

/-- Discriminator for generator invocations. -/
def isGenCall : Event → Bool
  | .genCall _ => true
  | _ => false

/-- Number of Attempt Records handed to the Outcome Reporter in a trace. -/
def countReports (evs : List Event) : Nat := evs.countP isReport

/-- Outcomes the source hands back through its normal control flow: a
returned value or a raised `ValidationError` (as opposed to an uncaught
exception unwinding out of `validate`). -/
def outcomeHandled : Outcome → Bool
  | .ok _ => true
  | .err _ => true
  | .exn _ => false

/-- The generator-invocation events of attempts `a, a+1, ..., a+n-1`. -/
def genCallList (a : Nat) : Nat → List Event
  | 0 => []
  | n + 1 => .genCall a :: genCallList (a + 1) n

theorem genCallList_countP : ∀ (n a : Nat), (genCallList a n).countP isGenCall = n := by
  intro n
  induction n with
  | zero => intro a; simp [genCallList]
  | succ m ih => intro a; simp [genCallList, List.countP_cons, isGenCall, ih]

/-- Helper: a generator-invocation event at the head of a trace adds no
report. -/
theorem countReports_cons_genCall (a : Nat) (l : List Event) :
    countReports (Event.genCall a :: l) = countReports l := by
  simp [countReports, List.countP_cons, isReport]

/-- The retry loop never emits a sleep event: no backoff wait of any kind
happens between attempts. -/
theorem retryLoop_no_sleep (gen : GenFn) (fields : SFields) (retries : Nat) (mode : Mode)
    (cfg : Config) (ctx : List (String × Val)) (cid : Option Val) (ltc : Bool) (dms : Nat)
    (sample : String) :
    ∀ (remaining attempt : Nat) (lastE : VError) (ev : Event),
      ev ∈ (retryLoop gen fields retries mode cfg ctx cid ltc dms sample attempt remaining
        lastE).2 → isSleep ev = false := by
  intro remaining
  induction remaining with
  | zero =>
    intro attempt lastE ev hev
    simp only [retryLoop] at hev
    simp at hev
    subst hev
    rfl
  | succ r ih =>
    intro attempt lastE ev hev
    simp only [retryLoop] at hev
    rcases List.mem_cons.mp hev with h | h
    · subst h; rfl
    · cases hga : gen attempt with
      | raisesExn name => rw [hga] at h; simp at h
      | raisesVErr e => rw [hga] at h; exact ih (attempt + 1) e ev h
      | returns newOut =>
        rw [hga] at h
        simp only [] at h
        cases hn : normalizeOutput newOut mode with
        | none => rw [hn] at h; exact ih (attempt + 1) lastE ev h
        | some newData =>
          rw [hn] at h
          simp only [] at h
          by_cases hb : (jsonDumps newData).utf8ByteSize > cfg.maxOutputBytes
          · rw [if_pos hb] at h
            exact ih (attempt + 1) lastE ev h
          · rw [if_neg hb] at h
            cases hv : validateAgainstSchema newData fields mode cfg "root" with
            | ok v => rw [hv] at h; simp at h; subst h; rfl
            | error pe =>
              cases pe with
              | exn name => rw [hv] at h; simp at h
              | vErr e => rw [hv] at h; exact ih (attempt + 1) e ev h

/-- C5 (code bug witnessed): `validate` performs no blocking wait of any kind
between retry attempts — its event trace never contains a sleep event, for
any input, generator, retry count, mode, or configuration.  The claim (and
the repository's own smoke test `test_exponential_backoff_jitter`, which
requires delays of roughly 0.5s and 1s before the second and third
generator calls) says an exponential backoff with jitter must occur; the
code imports `retry_with_backoff` but never calls it, and the retry loop
invokes the generator immediately. -/
theorem c5_no_backoff_wait_between_retries (out : AgentOutput) (fields : SFields)
    (retryFn : Option GenFn) (retries : Nat) (mode : Mode) (cfg : Config)
    (ctx : List (String × Val)) (ltc : Bool) (dms : Nat) :
    ((validate out fields retryFn retries mode cfg ctx ltc dms).2.all
      fun ev => !isSleep ev) = true := by
  rw [List.all_eq_true]
  intro ev hev
  suffices h : isSleep ev = false by simp [h]
  simp only [validate] at hev
  cases hn : normalizeOutput out mode with
  | none => rw [hn] at hev; simp at hev
  | some data =>
    rw [hn] at hev
    simp only [] at hev
    by_cases hb : (jsonDumps data).utf8ByteSize > cfg.maxOutputBytes
    · rw [if_pos hb] at hev; simp at hev
    · rw [if_neg hb] at hev
      cases hv : validateAgainstSchema data fields mode cfg "root" with
      | ok v => rw [hv] at hev; simp at hev; subst hev; rfl
      | error pe =>
        cases pe with
        | exn name => rw [hv] at hev; simp at hev
        | vErr e =>
          rw [hv] at hev
          simp only [] at hev
          cases retryFn with
          | none => simp at hev; subst hev; rfl
          | some gen =>
            exact retryLoop_no_sleep gen fields retries mode cfg ctx
              (alLookup "correlation_id" ctx) ltc dms (sampleOf (jsonDumps data))
              retries 1 e ev hev

/-- Number of Attempt Records the source emits for a given disposition: one
for a returned value or raised `ValidationError`, none for an uncaught
exception. -/
def reportWeight : Outcome → Nat
  | .ok _ => 1
  | .err _ => 1
  | .exn _ => 0

theorem reportWeight_eq (o : Outcome) :
    reportWeight o = (if outcomeHandled o then 1 else 0) := by
  cases o <;> rfl

/-- The retry loop hands exactly one Attempt Record to the reporter when it
terminates by returning a value or raising a `ValidationError`, and none
when an uncaught exception unwinds out of it. -/
theorem retryLoop_reports (gen : GenFn) (fields : SFields) (retries : Nat) (mode : Mode)
    (cfg : Config) (ctx : List (String × Val)) (cid : Option Val) (ltc : Bool) (dms : Nat)
    (sample : String) :
    ∀ (remaining attempt : Nat) (lastE : VError),
      countReports (retryLoop gen fields retries mode cfg ctx cid ltc dms sample attempt
          remaining lastE).2
        = reportWeight (retryLoop gen fields retries mode cfg ctx cid ltc dms sample
            attempt remaining lastE).1 := by
  intro remaining
  induction remaining with
  | zero =>
    intro attempt lastE
    simp [retryLoop, countReports, isReport, reportWeight]
  | succ r ih =>
    intro attempt lastE
    simp only [retryLoop]
    split
    · simp [countReports, isReport, reportWeight]
    · rw [countReports_cons_genCall]
      exact ih (attempt + 1) _
    · split
      · rw [countReports_cons_genCall]
        exact ih (attempt + 1) lastE
      · split
        · rw [countReports_cons_genCall]
          exact ih (attempt + 1) lastE
        · split
          · simp [countReports, List.countP_cons, isReport, reportWeight]
          · simp [countReports, isReport, reportWeight]
          · rename_i x e heq
            rw [countReports_cons_genCall]
            exact ih (attempt + 1) e

/-- C3 counterexample: a call that fails input normalization (invalid JSON in
STRICT mode) raises without handing any Attempt Record to the Outcome
Reporter — its event trace is empty, not one record as the claim requires. -/
theorem c3_counterexample_invalid_json_unreported :
    validate (.str "\x7b") (.cons "name" (.leaf .str) .nil) Option.none 2 .strict
      defaultConfig [] false 0
      = (.err ⟨"root", "Invalid JSON", 0, Option.none⟩, []) := by
  rfl

/-- C3 as amended: every `validate` call in which input normalization and the
whole-payload byte-size check pass hands exactly one Attempt Record to the
Outcome Reporter when it returns a value or raises a `ValidationError` (and
none when an uncaught exception escapes); calls failing normalization or the
byte-size check raise with no record at all. -/
theorem c3_amended_exactly_one_report (out : AgentOutput) (fields : SFields)
    (retryFn : Option GenFn) (retries : Nat) (mode : Mode) (cfg : Config)
    (ctx : List (String × Val)) (ltc : Bool) (dms : Nat) (data : Val)
    (hn : normalizeOutput out mode = some data)
    (hs : (jsonDumps data).utf8ByteSize ≤ cfg.maxOutputBytes) :
    countReports (validate out fields retryFn retries mode cfg ctx ltc dms).2
      = (if outcomeHandled (validate out fields retryFn retries mode cfg ctx ltc dms).1
          then 1 else 0) := by
  have hb : ¬ ((jsonDumps data).utf8ByteSize > cfg.maxOutputBytes) := by omega
  simp only [validate, hn]
  simp only [hb, if_false]
  cases hv : validateAgainstSchema data fields mode cfg "root" with
  | ok v => simp [countReports, isReport, outcomeHandled]
  | error pe =>
    cases pe with
    | exn name => simp [countReports, isReport, outcomeHandled]
    | vErr e =>
      cases retryFn with
      | none => simp [countReports, isReport, outcomeHandled]
      | some gen =>
        simp only []
        rw [← reportWeight_eq]
        exact retryLoop_reports gen fields retries mode cfg ctx
          (alLookup "correlation_id" ctx) ltc dms (sampleOf (jsonDumps data)) retries 1 e

/-- C3 amended, witness: a successful call with no generator hands exactly
one record. -/
theorem c3_amended_exactly_one_report_witness :
    countReports (validate (.val (.dict [("a", .int 1)])) (.cons "a" (.leaf .int) .nil)
        Option.none 2 .strict defaultConfig [] false 0).2
      = (if outcomeHandled (validate (.val (.dict [("a", .int 1)]))
            (.cons "a" (.leaf .int) .nil) Option.none 2 .strict defaultConfig [] false 0).1
          then 1 else 0) :=
  c3_amended_exactly_one_report (.val (.dict [("a", .int 1)])) (.cons "a" (.leaf .int) .nil)
    Option.none 2 .strict defaultConfig [] false 0 (.dict [("a", .int 1)]) rfl
    (by
      simp [jsonDumps, jsonDumpsPairs, jsonQuote, jsonEscapeChar, intRepr, natDecimal,
        defaultConfig]
      decide)

/-- Behaviour of the retry loop when every remaining attempt returns output
that fails schema validation: one generator call per attempt, `last_error`
tracking the most recent failure, and a single final failure record carrying
`retries + 1` as the attempt count. -/
theorem retryLoop_all_fail (gen : GenFn) (fields : SFields) (retries : Nat) (mode : Mode)
    (cfg : Config) (ctx : List (String × Val)) (cid : Option Val) (ltc : Bool) (dms : Nat)
    (sample : String) (dataOf : Nat → Val) (errOf : Nat → VError) :
    ∀ (remaining attempt : Nat) (lastE : VError),
      (∀ j, attempt ≤ j → j < attempt + remaining →
        gen j = .returns (.val (dataOf j)) ∧
        (jsonDumps (dataOf j)).utf8ByteSize ≤ cfg.maxOutputBytes ∧
        validateAgainstSchema (dataOf j) fields mode cfg "root" = .error (.vErr (errOf j))) →
      retryLoop gen fields retries mode cfg ctx cid ltc dms sample attempt remaining lastE
        = (.err (if remaining = 0 then lastE else errOf (attempt + remaining - 1)),
           genCallList attempt remaining ++
             [.report ⟨cid, false,
               [((if remaining = 0 then lastE else errOf (attempt + remaining - 1)).path,
                 (if remaining = 0 then lastE else errOf (attempt + remaining - 1)).reason)],
               retries + 1, dms, mode, ctx, sample, ltc⟩]) := by
  intro remaining
  induction remaining with
  | zero =>
    intro attempt lastE _
    simp [retryLoop, genCallList]
  | succ r ih =>
    intro attempt lastE h
    obtain ⟨hg, hsz, hvv⟩ := h attempt (Nat.le_refl _) (by omega)
    have hih := ih (attempt + 1) (errOf attempt) (fun j hj1 hj2 => h j (by omega) (by omega))
    simp only [retryLoop]
    split
    · rename_i x name heq
      rw [hg] at heq
      simp at heq
    · rename_i x e heq
      rw [hg] at heq
      simp at heq
    · rename_i x newOut heq
      rw [hg] at heq
      have hno : newOut = .val (dataOf attempt) := by
        injection heq with hh
        exact hh.symm
      subst hno
      split
      · rename_i y heq2
        simp [normalizeOutput] at heq2
      · rename_i y newData heq2
        have hnd : newData = dataOf attempt := by
          simp [normalizeOutput] at heq2
          exact heq2.symm
        subst hnd
        split
        · rename_i hgt
          exact absurd hgt (by omega)
        · split
          · rename_i z v heq3
            rw [hvv] at heq3
            simp at heq3
          · rename_i z name heq3
            rw [hvv] at heq3
            simp at heq3
          · rename_i z e heq3
            rw [hvv] at heq3
            simp at heq3
            subst heq3
            rw [hih]
            have hlast : (if r = 0 then errOf attempt else errOf (attempt + 1 + r - 1))
                = errOf (attempt + (r + 1) - 1) := by
              cases r with
              | zero => simp
              | succ r2 =>
                simp only [Nat.succ_ne_zero, if_false]
                congr 1
                omega
            rw [hlast]
            have h0 : ¬ (r + 1 = 0) := by omega
            simp [genCallList, h0]

/-! ### Claim C4: retry exhaustion -/

/-- C4: with a generator supplied and every attempt (initial and all retries)
failing schema validation, `validate` invokes the generator exactly once per
retry attempt — `max_retries` times in total — fails with the error of the
*last* attempt, and reports an attempt count of `max_retries + 1`. -/
theorem c4_retry_exhaustion (out : AgentOutput) (fields : SFields) (gen : GenFn)
    (retries : Nat) (mode : Mode) (cfg : Config) (ctx : List (String × Val)) (ltc : Bool)
    (dms : Nat) (data0 : Val) (e0 : VError) (dataOf : Nat → Val) (errOf : Nat → VError)
    (hr : 1 ≤ retries)
    (hn : normalizeOutput out mode = some data0)
    (hs0 : (jsonDumps data0).utf8ByteSize ≤ cfg.maxOutputBytes)
    (hv0 : validateAgainstSchema data0 fields mode cfg "root" = .error (.vErr e0))
    (hgen : ∀ j, 1 ≤ j → j ≤ retries →
      gen j = .returns (.val (dataOf j)) ∧
      (jsonDumps (dataOf j)).utf8ByteSize ≤ cfg.maxOutputBytes ∧
      validateAgainstSchema (dataOf j) fields mode cfg "root" = .error (.vErr (errOf j))) :
    validate out fields (some gen) retries mode cfg ctx ltc dms
      = (.err (errOf retries),
         genCallList 1 retries ++
           [.report ⟨alLookup "correlation_id" ctx, false,
             [((errOf retries).path, (errOf retries).reason)], retries + 1, dms, mode, ctx,
             sampleOf (jsonDumps data0), ltc⟩]) ∧
    (validate out fields (some gen) retries mode cfg ctx ltc dms).2.countP isGenCall
      = retries := by
  have hb : ¬ ((jsonDumps data0).utf8ByteSize > cfg.maxOutputBytes) := by omega
  have hloop := retryLoop_all_fail gen fields retries mode cfg ctx
    (alLookup "correlation_id" ctx) ltc dms (sampleOf (jsonDumps data0)) dataOf errOf
    retries 1 e0 (fun j h1 h2 => hgen j h1 (by omega))
  have hr0 : ¬ (retries = 0) := by omega
  have hlast : (if retries = 0 then e0 else errOf (1 + retries - 1)) = errOf retries := by
    simp only [hr0, if_false]
    congr 1
    omega
  rw [hlast] at hloop
  have hval : validate out fields (some gen) retries mode cfg ctx ltc dms
      = (.err (errOf retries),
         genCallList 1 retries ++
           [.report ⟨alLookup "correlation_id" ctx, false,
             [((errOf retries).path, (errOf retries).reason)], retries + 1, dms, mode, ctx,
             sampleOf (jsonDumps data0), ltc⟩]) := by
    simp only [validate, hn]
    simp only [hb, if_false]
    split
    · rename_i v heq
      rw [hv0] at heq
      simp at heq
    · rename_i name heq
      rw [hv0] at heq
      simp at heq
    · rename_i x e heq
      rw [hv0] at heq
      simp at heq
      subst heq
      exact hloop
  refine ⟨hval, ?_⟩
  rw [hval]
  simp [List.countP_append, genCallList_countP, isGenCall]

/-- C4 witness: `max_retries = 2`, a generator always returning the
structurally invalid output `{}` against schema `{name: str}` in STRICT mode:
the generator runs exactly twice, the call fails with the last attempt's
error at `root.name`, and the reported attempt count is 3. -/
theorem c4_retry_exhaustion_witness :
    validate (.val (.dict [])) (.cons "name" (.leaf .str) .nil)
      (some fun _ => .returns (.val (.dict []))) 2 .strict defaultConfig [] false 7
      = (.err ⟨"root.name", "Missing required field", 0, Option.none⟩,
         [.genCall 1, .genCall 2,
          .report ⟨Option.none, false, [("root.name", "Missing required field")], 3, 7,
            .strict, [], sampleOf (jsonDumps (.dict [])), false⟩]) ∧
    (validate (.val (.dict [])) (.cons "name" (.leaf .str) .nil)
      (some fun _ => .returns (.val (.dict []))) 2 .strict defaultConfig [] false 7).2.countP
        isGenCall = 2 :=
  c4_retry_exhaustion (.val (.dict [])) (.cons "name" (.leaf .str) .nil)
    (fun _ => .returns (.val (.dict []))) 2 .strict defaultConfig [] false 7 (.dict [])
    ⟨"root.name", "Missing required field", 0, Option.none⟩ (fun _ => .dict [])
    (fun _ => ⟨"root.name", "Missing required field", 0, Option.none⟩)
    (by decide) rfl
    (by
      simp [jsonDumps, jsonDumpsPairs]
      decide)
    (by simp [validateAgainstSchema, validateFields, keyNotIn, defaultConfig, verr])
    (fun j h1 h2 =>
      ⟨rfl,
        by
          simp [jsonDumps, jsonDumpsPairs]
          decide,
        by simp [validateAgainstSchema, validateFields, keyNotIn, defaultConfig, verr]⟩)

/-! ### Claim C6: which generator failures are consumed -/

/-- C6 counterexample: a generator that raises an exception of a class other
than `ValidationError` (here `RuntimeError`) makes that exception propagate
out of `validate` immediately after the first retry attempt — it is not
consumed as a failed attempt and the call does not end with the final
`ValidationError`. -/
theorem c6_counterexample_generator_exception_propagates :
    validate (.val (.dict [])) (.cons "name" (.leaf .str) .nil)
      (some fun _ => .raisesExn "RuntimeError") 2 .strict defaultConfig [] false 0
      = (.exn "RuntimeError", [.genCall 1]) := by
  have hb : ¬ ((jsonDumps (Val.dict [])).utf8ByteSize > defaultConfig.maxOutputBytes) := by
    simp [jsonDumps, jsonDumpsPairs]
    decide
  have hv : validateAgainstSchema (.dict []) (.cons "name" (.leaf .str) .nil) .strict
      defaultConfig "root"
      = .error (.vErr ⟨"root.name", "Missing required field", 0, Option.none⟩) := by
    simp [validateAgainstSchema, validateFields, keyNotIn, defaultConfig, verr]
  simp only [validate]
  simp only [normalizeOutput]
  simp only [hb, if_false]
  split
  · rename_i v heq
    rw [hv] at heq
    simp at heq
  · rename_i name heq
    rw [hv] at heq
    simp at heq
  · rename_i x e heq
    rw [hv] at heq
    simp at heq
    subst heq
    rfl

/-- C6 as amended: only failures of a retry attempt that surface as a
`ValidationError` are consumed and advance the loop — a `ValidationError`
raised by the generator itself (first conjunct) or returned data that fails
schema validation after normalization and the size check (second conjunct),
each of which turns into a recursive loop step with `last_error` updated.
Any exception of another class raised by the generator propagates out of the
loop immediately, carrying only that attempt's generator-call event (third
conjunct). -/
theorem c6_amended_only_validation_failures_consumed :
    (∀ (gen : GenFn) (fields : SFields) (retries : Nat) (mode : Mode) (cfg : Config)
      (ctx : List (String × Val)) (cid : Option Val) (ltc : Bool) (dms : Nat)
      (sample : String) (attempt r : Nat) (lastE e : VError),
      gen attempt = .raisesVErr e →
      retryLoop gen fields retries mode cfg ctx cid ltc dms sample attempt (r + 1) lastE
        = ((retryLoop gen fields retries mode cfg ctx cid ltc dms sample (attempt + 1) r e).1,
           .genCall attempt ::
             (retryLoop gen fields retries mode cfg ctx cid ltc dms sample (attempt + 1) r
               e).2)) ∧
    (∀ (gen : GenFn) (fields : SFields) (retries : Nat) (mode : Mode) (cfg : Config)
      (ctx : List (String × Val)) (cid : Option Val) (ltc : Bool) (dms : Nat)
      (sample : String) (attempt r : Nat) (lastE : VError) (newOut : AgentOutput) (d2 : Val)
      (e : VError),
      gen attempt = .returns newOut →
      normalizeOutput newOut mode = some d2 →
      (jsonDumps d2).utf8ByteSize ≤ cfg.maxOutputBytes →
      validateAgainstSchema d2 fields mode cfg "root" = .error (.vErr e) →
      retryLoop gen fields retries mode cfg ctx cid ltc dms sample attempt (r + 1) lastE
        = ((retryLoop gen fields retries mode cfg ctx cid ltc dms sample (attempt + 1) r e).1,
           .genCall attempt ::
             (retryLoop gen fields retries mode cfg ctx cid ltc dms sample (attempt + 1) r
               e).2)) ∧
    (∀ (gen : GenFn) (fields : SFields) (retries : Nat) (mode : Mode) (cfg : Config)
      (ctx : List (String × Val)) (cid : Option Val) (ltc : Bool) (dms : Nat)
      (sample : String) (attempt r : Nat) (lastE : VError) (name : String),
      gen attempt = .raisesExn name →
      retryLoop gen fields retries mode cfg ctx cid ltc dms sample attempt (r + 1) lastE
        = (.exn name, [.genCall attempt])) := by
  refine ⟨?_, ?_, ?_⟩
  · intro gen fields retries mode cfg ctx cid ltc dms sample attempt r lastE e hg
    simp only [retryLoop]
    split
    · rename_i x name heq
      rw [hg] at heq
      simp at heq
    · rename_i x e2 heq
      rw [hg] at heq
      simp at heq
      subst heq
      rfl
    · rename_i x newOut heq
      rw [hg] at heq
      simp at heq
  · intro gen fields retries mode cfg ctx cid ltc dms sample attempt r lastE newOut d2 e hg
      hn hsz hvv
    simp only [retryLoop]
    split
    · rename_i x name heq
      rw [hg] at heq
      simp at heq
    · rename_i x e2 heq
      rw [hg] at heq
      simp at heq
    · rename_i x newOut2 heq
      rw [hg] at heq
      have hno : newOut2 = newOut := by
        injection heq with hh
        exact hh.symm
      subst hno
      split
      · rename_i y heq2
        rw [hn] at heq2
        simp at heq2
      · rename_i y newData heq2
        rw [hn] at heq2
        have hnd : newData = d2 := by
          injection heq2 with hh
          exact hh.symm
        subst hnd
        split
        · rename_i hgt
          exact absurd hgt (by omega)
        · split
          · rename_i z v heq3
            rw [hvv] at heq3
            simp at heq3
          · rename_i z name heq3
            rw [hvv] at heq3
            simp at heq3
          · rename_i z e2 heq3
            rw [hvv] at heq3
            simp at heq3
            subst heq3
            rfl
  · intro gen fields retries mode cfg ctx cid ltc dms sample attempt r lastE name hg
    simp only [retryLoop]
    split
    · rename_i x name2 heq
      rw [hg] at heq
      simp at heq
      subst heq
      rfl
    · rename_i x e2 heq
      rw [hg] at heq
      simp at heq
    · rename_i x newOut heq
      rw [hg] at heq
      simp at heq

/-- C6 amended, witness: each conjunct applied at a concrete generator — one
raising `ValidationError`, one returning invalid output, one raising
`RuntimeError`. -/
theorem c6_amended_only_validation_failures_consumed_witness :
    (retryLoop (fun _ => .raisesVErr ⟨"root", "bad", 0, Option.none⟩)
        (.cons "name" (.leaf .str) .nil) 2 .strict defaultConfig [] Option.none false 0 ""
        1 2 ⟨"root", "first", 0, Option.none⟩
      = ((retryLoop (fun _ => .raisesVErr ⟨"root", "bad", 0, Option.none⟩)
            (.cons "name" (.leaf .str) .nil) 2 .strict defaultConfig [] Option.none false 0 ""
            2 1 ⟨"root", "bad", 0, Option.none⟩).1,
         .genCall 1 ::
           (retryLoop (fun _ => .raisesVErr ⟨"root", "bad", 0, Option.none⟩)
              (.cons "name" (.leaf .str) .nil) 2 .strict defaultConfig [] Option.none false 0
              "" 2 1 ⟨"root", "bad", 0, Option.none⟩).2)) ∧
    (retryLoop (fun _ => .returns (.val (.dict []))) (.cons "name" (.leaf .str) .nil) 2
        .strict defaultConfig [] Option.none false 0 "" 1 2 ⟨"root", "first", 0, Option.none⟩
      = ((retryLoop (fun _ => .returns (.val (.dict []))) (.cons "name" (.leaf .str) .nil) 2
            .strict defaultConfig [] Option.none false 0 "" 2 1
            ⟨"root.name", "Missing required field", 0, Option.none⟩).1,
         .genCall 1 ::
           (retryLoop (fun _ => .returns (.val (.dict []))) (.cons "name" (.leaf .str) .nil)
              2 .strict defaultConfig [] Option.none false 0 "" 2 1
              ⟨"root.name", "Missing required field", 0, Option.none⟩).2)) ∧
    (retryLoop (fun _ => .raisesExn "RuntimeError") (.cons "name" (.leaf .str) .nil) 2
        .strict defaultConfig [] Option.none false 0 "" 1 2 ⟨"root", "first", 0, Option.none⟩
      = (.exn "RuntimeError", [.genCall 1])) :=
  ⟨c6_amended_only_validation_failures_consumed.1
      (fun _ => .raisesVErr ⟨"root", "bad", 0, Option.none⟩) (.cons "name" (.leaf .str) .nil)
      2 .strict defaultConfig [] Option.none false 0 "" 1 1 ⟨"root", "first", 0, Option.none⟩
      ⟨"root", "bad", 0, Option.none⟩ rfl,
    c6_amended_only_validation_failures_consumed.2.1
      (fun _ => .returns (.val (.dict []))) (.cons "name" (.leaf .str) .nil) 2 .strict
      defaultConfig [] Option.none false 0 "" 1 1 ⟨"root", "first", 0, Option.none⟩
      (.val (.dict [])) (.dict []) ⟨"root.name", "Missing required field", 0, Option.none⟩
      rfl rfl
      (by
        simp [jsonDumps, jsonDumpsPairs]
        decide)
      (by simp [validateAgainstSchema, validateFields, keyNotIn, defaultConfig, verr]),
    c6_amended_only_validation_failures_consumed.2.2
      (fun _ => .raisesExn "RuntimeError") (.cons "name" (.leaf .str) .nil) 2 .strict
      defaultConfig [] Option.none false 0 "" 1 1 ⟨"root", "first", 0, Option.none⟩
      "RuntimeError" rfl⟩

end AgentValidator
